import Mathlib

/-!
A shallow embedding of the Tournament Progression Engine of the
tournaments repository and proofs about it.

Embedded sources:
- domain/Match.hpp (Match, MatchTeam, Score, GetWinnerId, SetScore)
- domain/Tournament.hpp (Tournament, TournamentFormat, TournamentType)
- persistence/repository/MatchRepository.hpp, GroupRepository.hpp,
  TournamentRepository.cpp (SQL-backed stores, modelled as in-memory
  lists kept in insertion order; the finder queries order by the
  created_at insertion timestamp, so list order models query order)
- service/MatchGenerationService.hpp (GenerateRoundRobinMatches)
- service/PlayoffGenerationService.hpp (AreAllGroupMatchesCompleted,
  CalculateGroupStandings, GetTopTeams, GenerateQuarterfinals,
  AdvanceWinners)
- delegate/MatchDelegate.hpp (UpdateScore)

Conventions: C++ std::string is String, C++ int is Int, std::optional
is Option, std::expected of void is Except String Unit.  Functions
that write through a repository return the result paired with the
(possibly updated) store.  The DB-generated row id of a match is
identified with the id field that the repository serializes into the
match document.  Message-queue publication (ScoreRegistered events)
is transport outside the embedded core and is not modelled.
-/

namespace domain

/-- Modelled from the spec: domain/Team.hpp is not among the sources;
the spec (section 3) describes a team as identity plus display name,
and the services access the public fields Id and Name. -/
structure Team where
  Id : String
  Name : String
deriving DecidableEq

/-- Embedded team info for matches, from domain/Match.hpp. -/
structure MatchTeam where
  id : String
  name : String
deriving DecidableEq

/-- Score for a match, from domain/Match.hpp; C++ int fields. -/
structure Score where
  home : Int
  visitor : Int
deriving DecidableEq

/-- Match, from domain/Match.hpp.  A default-constructed C++ Match has
empty strings, no group id and no score. -/
structure Match where
  id : String
  tournamentId : String
  groupId : Option String
  home : MatchTeam
  visitor : MatchTeam
  score : Option Score
  round : String
  status : String
deriving DecidableEq

/-- Match::SetScore: set the score and mark the match as played. -/
def Match.SetScore (m : Match) (s : Score) : Match :=
  { m with score := some s, status := "played" }

/-- Match::GetWinnerId: the side with the strictly higher score, none
when there is no score or the score is a tie. -/
def Match.GetWinnerId (m : Match) : Option String :=
  match m.score with
  | none => none
  | some s =>
    if s.home > s.visitor then some m.home.id
    else if s.visitor > s.home then some m.visitor.id
    else none

/-- Modelled from the spec: domain/Group.hpp is not among the sources;
the spec (section 3) gives id, owning tournament id, name and the
ordered list of member teams, matching the accessors Id, TournamentId,
Name and Teams used by the services. -/
structure Group where
  id : String
  tournamentId : String
  name : String
  teams : List Team
deriving DecidableEq

/-- Tournament type enumeration, from domain/Tournament.hpp. -/
inductive TournamentType where
  | ROUND_ROBIN
  | NFL
deriving DecidableEq

/-- TournamentFormat, from domain/Tournament.hpp; C++ int fields. -/
structure TournamentFormat where
  numberOfGroups : Int
  maxTeamsPerGroup : Int
  type : TournamentType
deriving DecidableEq

/-- Tournament, from domain/Tournament.hpp.  The embedded groups and
matches vectors of the C++ class are never read by the engine and are
omitted. -/
structure Tournament where
  id : String
  name : String
  format : TournamentFormat
deriving DecidableEq

end domain

/-- The shared persistent state behind the three repositories.  Lists
are in insertion order, which is the created_at order used by the SQL
finder queries. -/
structure Store where
  tournaments : List domain.Tournament
  groups : List domain.Group
  matchesTable : List domain.Match
deriving DecidableEq

namespace TournamentRepository

/-- TournamentRepository::ReadById: select by tournament id. -/
def ReadById (s : Store) (id : String) : Option domain.Tournament :=
  s.tournaments.find? (fun t => t.id == id)

end TournamentRepository

namespace MatchRepository

/-- MatchRepository::FindByTournamentIdAndRound: matches of one
tournament and round, in created_at order. -/
def FindByTournamentIdAndRound (s : Store) (tournamentId round : String) :
    List domain.Match :=
  s.matchesTable.filter (fun m => m.tournamentId == tournamentId && m.round == round)

/-- MatchRepository::FindByGroupId: matches of one group, in
created_at order; a match without a group id never qualifies. -/
def FindByGroupId (s : Store) (groupId : String) : List domain.Match :=
  s.matchesTable.filter (fun m => m.groupId == some groupId)

/-- MatchRepository::ExistsByGroupId: count of the group matches is
positive. -/
def ExistsByGroupId (s : Store) (groupId : String) : Bool :=
  decide (0 < (FindByGroupId s groupId).length)

/-- MatchRepository::ReadById: select one match by id. -/
def ReadById (s : Store) (id : String) : Option domain.Match :=
  s.matchesTable.find? (fun m => m.id == id)

/-- MatchRepository::Create: insert the match document. -/
def Create (s : Store) (m : domain.Match) : Store :=
  { s with matchesTable := s.matchesTable ++ [m] }

/-- MatchRepository::Update: replace the document of the row with the
entity id, returning the id, or the empty string when no row matches. -/
def Update (s : Store) (m : domain.Match) : String × Store :=
  if s.matchesTable.any (fun x => x.id == m.id) then
    (m.id, { s with matchesTable := s.matchesTable.map (fun x => if x.id == m.id then m else x) })
  else ("", s)

end MatchRepository

namespace GroupRepository

/-- GroupRepository::FindByTournamentIdAndGroupId: the first row whose
id and owning tournament id both match. -/
def FindByTournamentIdAndGroupId (s : Store) (tournamentId groupId : String) :
    Option domain.Group :=
  (s.groups.filter (fun g => g.id == groupId && g.tournamentId == tournamentId)).head?

/-- GroupRepository::FindByTournamentId: all groups of one tournament,
in insertion order. -/
def FindByTournamentId (s : Store) (tournamentId : String) : List domain.Group :=
  s.groups.filter (fun g => g.tournamentId == tournamentId)

end GroupRepository

namespace MatchGenerationService

/-- MatchGenerationService::CalculateMatchCount (double round-robin). -/
def CalculateMatchCount (teamCount : Int) : Int :=
  teamCount * (teamCount - 1)

/-- The match the round-robin loop body emits for roster indices i
(home) and j (visitor).  Out-of-range indices never occur in the
generator (both run below the roster length). -/
def rrMatch (tournamentId groupId : String) (teams : List domain.Team)
    (i j : Nat) : domain.Match :=
  let ti := teams.getD i { Id := "", Name := "" }
  let tj := teams.getD j { Id := "", Name := "" }
  { id := tournamentId ++ "-" ++ groupId ++ "-" ++ ti.Id ++ "-vs-" ++ tj.Id
    tournamentId := tournamentId
    groupId := some groupId
    home := { id := ti.Id, name := ti.Name }
    visitor := { id := tj.Id, name := tj.Name }
    score := none
    round := "regular"
    status := "pending" }

/-- The double loop of GenerateRoundRobinMatches: every ordered index
pair with i different from j, i as home, in loop order. -/
def roundRobinMatches (tournamentId groupId : String) (teams : List domain.Team) :
    List domain.Match :=
  (List.range teams.length).flatMap (fun i =>
    (List.range teams.length).filterMap (fun j =>
      if i = j then none else some (rrMatch tournamentId groupId teams i j)))

/-- MatchGenerationService::GenerateRoundRobinMatches, checks in source
order: tournament exists, group exists, group belongs to the
tournament, no matches exist for the group yet, group at capacity;
then one Create per generated match. -/
def GenerateRoundRobinMatches (s : Store) (tournamentId groupId : String) :
    Except String Unit × Store :=
  match TournamentRepository.ReadById s tournamentId with
  | none => (Except.error "Tournament doesn\x27t exist", s)
  | some tournament =>
    match GroupRepository.FindByTournamentIdAndGroupId s tournamentId groupId with
    | none => (Except.error "Group doesn\x27t exist", s)
    | some group =>
      if group.tournamentId ≠ tournamentId then
        (Except.error "Group doesn\x27t belong to this tournament", s)
      else if MatchRepository.ExistsByGroupId s groupId then
        (Except.error "Matches already generated for this group", s)
      else if (group.teams.length : Int) < tournament.format.maxTeamsPerGroup then
        (Except.error "Group is not full yet. Cannot generate matches.", s)
      else
        (Except.ok (),
          { s with matchesTable := s.matchesTable ++ roundRobinMatches tournamentId groupId group.teams })

end MatchGenerationService

namespace PlayoffGenerationService

/-- PlayoffGenerationService::TeamStanding; C++ int fields, all zero
after value initialization. -/
structure TeamStanding where
  team : domain.Team
  wins : Int
  goalsFor : Int
  goalsAgainst : Int
  goalDifference : Int
deriving DecidableEq

/-- A value-initialized TeamStanding: zero counters and a
default-constructed team (empty id and name). -/
def defaultStanding : TeamStanding :=
  { team := { Id := "", Name := "" }
    wins := 0, goalsFor := 0, goalsAgainst := 0, goalDifference := 0 }

/-- The std::less ordering on std::string keys: lexicographic
character comparison.  (Stated on the character list so that it
evaluates by kernel reduction.) -/
def strLt (a b : String) : Bool :=
  decide (a.data < b.data)

/-- The std::map of CalculateGroupStandings, as an association list
kept in ascending key order, exactly the iteration order of the map. -/
abbrev StandingsMap := List (String × TeamStanding)

/-- Assignment through std::map operator[]: overwrite the mapped value
when the key exists, otherwise insert at the key position. -/
def mapAssign (k : String) (v : TeamStanding) : StandingsMap → StandingsMap
  | [] => [(k, v)]
  | (k2, v2) :: rest =>
    if k = k2 then (k2, v) :: rest
    else if strLt k k2 then (k, v) :: (k2, v2) :: rest
    else (k2, v2) :: mapAssign k v rest

/-- An additive update to the counters of one standing, as performed
by the compound assignments of the match loop. -/
structure Delta where
  dWins : Int
  dGoalsFor : Int
  dGoalsAgainst : Int
deriving DecidableEq

/-- Apply a counter delta; the team field is never touched by the
match loop. -/
def applyDelta (d : Delta) (st : TeamStanding) : TeamStanding :=
  { st with
    wins := st.wins + d.dWins
    goalsFor := st.goalsFor + d.dGoalsFor
    goalsAgainst := st.goalsAgainst + d.dGoalsAgainst }

/-- Compound assignment through std::map operator[]: when the key is
absent the map value-initializes the standing first (this is how a
match naming a team outside the roster creates a phantom standing with
a default-constructed team). -/
def bump (k : String) (d : Delta) : StandingsMap → StandingsMap
  | [] => [(k, applyDelta d defaultStanding)]
  | (k2, v2) :: rest =>
    if k = k2 then (k2, applyDelta d v2) :: rest
    else if strLt k k2 then (k, applyDelta d defaultStanding) :: (k2, v2) :: rest
    else (k2, v2) :: bump k d rest

/-- One iteration of the match loop of CalculateGroupStandings: skip
the match unless its status is played and it has a score; otherwise
add goals for both sides and a win for the strictly higher side, in
source order. -/
def matchStep (st : StandingsMap) (m : domain.Match) : StandingsMap :=
  if m.status = "played" then
    match m.score with
    | none => st
    | some sc =>
      let st1 := bump m.home.id { dWins := 0, dGoalsFor := sc.home, dGoalsAgainst := 0 } st
      let st2 := bump m.home.id { dWins := 0, dGoalsFor := 0, dGoalsAgainst := sc.visitor } st1
      let st3 := bump m.visitor.id { dWins := 0, dGoalsFor := sc.visitor, dGoalsAgainst := 0 } st2
      let st4 := bump m.visitor.id { dWins := 0, dGoalsFor := 0, dGoalsAgainst := sc.home } st3
      if sc.home > sc.visitor then
        bump m.home.id { dWins := 1, dGoalsFor := 0, dGoalsAgainst := 0 } st4
      else if sc.visitor > sc.home then
        bump m.visitor.id { dWins := 1, dGoalsFor := 0, dGoalsAgainst := 0 } st4
      else st4
  else st

/-- The roster initialization loop: one assignment per roster team in
roster order. -/
def initStandings (teams : List domain.Team) : StandingsMap :=
  teams.foldl (fun st t => mapAssign t.Id { defaultStanding with team := t } st) []

/-- The strict comparator passed to std::sort: by wins, then goal
difference, then goals for, each descending. -/
def standingLess (a b : TeamStanding) : Bool :=
  if a.wins ≠ b.wins then decide (a.wins > b.wins)
  else if a.goalDifference ≠ b.goalDifference then decide (a.goalDifference > b.goalDifference)
  else decide (a.goalsFor > b.goalsFor)

/-- The non-strict order induced by the comparator: a may stay before
b exactly when b is not strictly better. -/
def standingLe (a b : TeamStanding) : Bool :=
  ! standingLess b a

/-- Insert a standing in front of the first element that is not
strictly better than it, keeping earlier equivalent elements first. -/
def insertStanding (a : TeamStanding) : List TeamStanding → List TeamStanding
  | [] => [a]
  | b :: rest =>
    if standingLe a b then a :: b :: rest else b :: insertStanding a rest

/-- The std::sort call of CalculateGroupStandings, modelled as a
stable insertion sort: the C++ standard leaves the order of elements
equivalent under the comparator unspecified, and for the vector sizes
occurring here the libstdc++ std::sort runs exactly a final insertion
sort, which keeps the incoming order of equivalent elements. -/
def sortStandings : List TeamStanding → List TeamStanding
  | [] => []
  | a :: rest => insertStanding a (sortStandings rest)

/-- PlayoffGenerationService::CalculateGroupStandings: collect the
group matches, initialize a standing per roster team, fold the match
results into the map, compute goal differences while copying the map
out in ascending key order, and sort by the comparator. -/
def CalculateGroupStandings (s : Store) (tournamentId groupId : String) :
    List TeamStanding :=
  let ms := MatchRepository.FindByGroupId s groupId
  match GroupRepository.FindByTournamentIdAndGroupId s tournamentId groupId with
  | none => []
  | some group =>
    let acc := ms.foldl matchStep (initStandings group.teams)
    let result := acc.map (fun p =>
      { p.2 with goalDifference := p.2.goalsFor - p.2.goalsAgainst })
    sortStandings result

/-- PlayoffGenerationService::GetTopTeams: the first count standings
(or all of them when fewer), projected to their teams. -/
def GetTopTeams (standings : List TeamStanding) (count : Nat) : List domain.Team :=
  (standings.take count).map (fun st => st.team)

/-- PlayoffGenerationService::AreAllGroupMatchesCompleted: there is at
least one regular match and none of them is unplayed. -/
def AreAllGroupMatchesCompleted (s : Store) (tournamentId : String) : Bool :=
  let ms := MatchRepository.FindByTournamentIdAndRound s tournamentId "regular"
  if ms.isEmpty then false
  else ms.all (fun m => m.status == "played")

/-- The quarterfinal match built for pair index k (id suffix qf-1 to
qf-4): no group id, round quarterfinals, status pending, no score. -/
def qfMatch (tournamentId : String) (k : Nat) (pair : domain.Team × domain.Team) :
    domain.Match :=
  { id := tournamentId ++ "-qf-" ++ toString (k + 1)
    tournamentId := tournamentId
    groupId := none
    home := { id := pair.1.Id, name := pair.1.Name }
    visitor := { id := pair.2.Id, name := pair.2.Name }
    score := none
    round := "quarterfinals"
    status := "pending" }

/-- The match creation loop of GenerateQuarterfinals, carrying the
running pair index. -/
def qfMatches (tournamentId : String) (k : Nat) :
    List (domain.Team × domain.Team) → List domain.Match
  | [] => []
  | pair :: rest => qfMatch tournamentId k pair :: qfMatches tournamentId (k + 1) rest

/-- PlayoffGenerationService::GenerateQuarterfinals, checks in source
order: tournament exists, all group matches completed, no existing
quarterfinals, at least 4 groups; then top-2 standings of every group
are collected and the fixed cross-group pairs (A1 D2, B1 C2, C1 B2,
D1 A2) over the first four groups are created.  The C++ vector
indexing into the top-team lists is undefined for groups with fewer
than two standings; the embedding totalizes it with default teams. -/
def GenerateQuarterfinals (s : Store) (tournamentId : String) :
    Except String Unit × Store :=
  match TournamentRepository.ReadById s tournamentId with
  | none => (Except.error "Tournament doesn\x27t exist", s)
  | some _ =>
    if ! AreAllGroupMatchesCompleted s tournamentId then
      (Except.error "Not all group stage matches are completed", s)
    else
      let existingQuarterfinals :=
        MatchRepository.FindByTournamentIdAndRound s tournamentId "quarterfinals"
      if ! existingQuarterfinals.isEmpty then
        (Except.error "Quarterfinals already generated", s)
      else
        let groups := GroupRepository.FindByTournamentId s tournamentId
        if groups.length < 4 then
          (Except.error "Tournament must have at least 4 groups for playoffs", s)
        else
          let groupTopTeams := groups.map (fun g =>
            GetTopTeams (CalculateGroupStandings s tournamentId g.id) 2)
          let top := fun (i j : Nat) =>
            (groupTopTeams.getD i []).getD j { Id := "", Name := "" }
          let quarterfinalPairs : List (domain.Team × domain.Team) :=
            if groupTopTeams.length ≥ 4 then
              [(top 0 0, top 3 1), (top 1 0, top 2 1), (top 2 0, top 1 1), (top 3 0, top 0 1)]
            else []
          (Except.ok (),
            { s with matchesTable := s.matchesTable ++ qfMatches tournamentId 0 quarterfinalPairs })

/-- The team-detail scan of AdvanceWinners: run over all completed
matches and keep the winning side of the last match won by winnerId,
starting from a default-constructed MatchTeam. -/
def findWinnerTeam (completed : List domain.Match) (winnerId : String) :
    domain.MatchTeam :=
  completed.foldl
    (fun acc m =>
      if m.GetWinnerId = some winnerId then
        (if m.home.id = winnerId then m.home else m.visitor)
      else acc)
    { id := "", name := "" }

/-- The next-round match built for pair index k: no group id, status
pending, no score. -/
def nextRoundMatch (tournamentId nextRound : String) (k : Nat)
    (home visitor : domain.MatchTeam) : domain.Match :=
  { id := tournamentId ++ "-" ++ nextRound ++ "-" ++ toString (k + 1)
    tournamentId := tournamentId
    groupId := none
    home := home
    visitor := visitor
    score := none
    round := nextRound
    status := "pending" }

/-- The generation loop of AdvanceWinners: consecutive winners two at
a time in list order; a single leftover winner is dropped. -/
def advancePairs (tournamentId nextRound : String) (completed : List domain.Match)
    (k : Nat) : List String → List domain.Match
  | w1 :: w2 :: rest =>
    nextRoundMatch tournamentId nextRound k
        (findWinnerTeam completed w1) (findWinnerTeam completed w2)
      :: advancePairs tournamentId nextRound completed (k + 1) rest
  | _ => []

/-- The body of AdvanceWinners after round validation, checks in
source order: enough matches in the completed round, every match
played (otherwise a success no-op), every match has a winner, next
round does not exist yet (otherwise a success no-op); then the paired
winner matches are created. -/
def advanceFrom (s : Store) (tournamentId round nextRound : String)
    (matchesNeeded : Nat) : Except String Unit × Store :=
  let completedMatches := MatchRepository.FindByTournamentIdAndRound s tournamentId round
  if completedMatches.length < matchesNeeded then
    (Except.error ("Not enough matches in " ++ round), s)
  else if completedMatches.any (fun m => m.status != "played") then
    (Except.ok (), s)
  else
    let winners := completedMatches.filterMap (fun m => m.GetWinnerId)
    if winners.length < matchesNeeded then
      (Except.error "Not all matches have winners", s)
    else
      let existingNextRound :=
        MatchRepository.FindByTournamentIdAndRound s tournamentId nextRound
      if ! existingNextRound.isEmpty then
        (Except.ok (), s)
      else
        (Except.ok (),
          { s with matchesTable :=
              s.matchesTable ++ advancePairs tournamentId nextRound completedMatches 0 winners })

/-- PlayoffGenerationService::AdvanceWinners: tournament must exist;
quarterfinals advance to semifinals needing 4 matches, semifinals to
finals needing 2, any other round is invalid. -/
def AdvanceWinners (s : Store) (tournamentId round : String) :
    Except String Unit × Store :=
  match TournamentRepository.ReadById s tournamentId with
  | none => (Except.error "Tournament doesn\x27t exist", s)
  | some _ =>
    if round = "quarterfinals" then advanceFrom s tournamentId round "semifinals" 4
    else if round = "semifinals" then advanceFrom s tournamentId round "finals" 2
    else (Except.error "Invalid round for advancement", s)

end PlayoffGenerationService

namespace MatchDelegate

/-- MatchDelegate::UpdateScore, checks in source order: tournament
exists, match exists, match belongs to the tournament, neither value
negative, neither value above 10, no tie outside the regular round;
then SetScore and a repository update.  The ScoreRegistered message
publication is transport outside the embedded core. -/
def UpdateScore (s : Store) (tournamentId matchId : String) (score : domain.Score) :
    Except String Unit × Store :=
  match TournamentRepository.ReadById s tournamentId with
  | none => (Except.error "Tournament doesn\x27t exist", s)
  | some _ =>
    match MatchRepository.ReadById s matchId with
    | none => (Except.error "Match doesn\x27t exist", s)
    | some m =>
      if m.tournamentId ≠ tournamentId then
        (Except.error "Match doesn\x27t belong to this tournament", s)
      else if score.home < 0 ∨ score.visitor < 0 then
        (Except.error "Score cannot be negative", s)
      else if score.home > 10 ∨ score.visitor > 10 then
        (Except.error "Score must be between 0 and 10", s)
      else if score.home = score.visitor ∧ m.round ≠ "regular" then
        (Except.error "Ties are not allowed in playoff rounds", s)
      else
        let upd := MatchRepository.Update s (m.SetScore score)
        if upd.1 = "" then (Except.error "Failed to update match", upd.2)
        else (Except.ok (), upd.2)

end MatchDelegate

namespace Fixtures

/-- A team whose display name equals its id, for concrete stores. -/
def mkTeam (i : String) : domain.Team :=
  { Id := i, Name := i }

/-- A concrete match record, team names equal to team ids. -/
def mkMatch (id tid : String) (gid : Option String) (hid vid rnd st : String)
    (sc : Option domain.Score) : domain.Match :=
  { id := id
    tournamentId := tid
    groupId := gid
    home := { id := hid, name := hid }
    visitor := { id := vid, name := vid }
    score := sc
    round := rnd
    status := st }

/-- Tournament for the idempotency-guard scenario of claim C1. -/
def c1T : domain.Tournament :=
  { id := "t1", name := "T1"
    format := { numberOfGroups := 1, maxTeamsPerGroup := 2
                type := domain.TournamentType.ROUND_ROBIN } }

/-- Group of the C1 scenario, already at capacity. -/
def c1G : domain.Group :=
  { id := "g1", tournamentId := "t1", name := "G1", teams := [mkTeam "a", mkTeam "b"] }

/-- Store of the C1 scenario: output of every generation step already
exists (group matches, quarterfinals, semifinals and finals). -/
def c1Store : Store :=
  { tournaments := [c1T]
    groups := [c1G]
    matchesTable :=
      [ mkMatch "r1" "t1" (some "g1") "a" "b" "regular" "played" (some { home := 2, visitor := 1 })
      , mkMatch "q1" "t1" none "a" "b" "quarterfinals" "played" (some { home := 1, visitor := 0 })
      , mkMatch "q2" "t1" none "c" "d" "quarterfinals" "played" (some { home := 1, visitor := 0 })
      , mkMatch "q3" "t1" none "e" "f" "quarterfinals" "played" (some { home := 1, visitor := 0 })
      , mkMatch "q4" "t1" none "g" "h" "quarterfinals" "played" (some { home := 1, visitor := 0 })
      , mkMatch "s1" "t1" none "a" "c" "semifinals" "played" (some { home := 1, visitor := 0 })
      , mkMatch "s2" "t1" none "e" "g" "semifinals" "played" (some { home := 1, visitor := 0 })
      , mkMatch "f1" "t1" none "a" "e" "finals" "pending" none ] }

/-- Tournament of the C3 scenario: a single large group. -/
def c3T : domain.Tournament :=
  { id := "t3", name := "T3"
    format := { numberOfGroups := 1, maxTeamsPerGroup := 8
                type := domain.TournamentType.ROUND_ROBIN } }

/-- The single 8-team group of the C3 scenario. -/
def c3G : domain.Group :=
  { id := "g3", tournamentId := "t3", name := "G3"
    teams := [mkTeam "a", mkTeam "b", mkTeam "c", mkTeam "d",
              mkTeam "e", mkTeam "f", mkTeam "g", mkTeam "h"] }

/-- Store of the C3 scenario: one group of 8 ranked teams, all regular
matches played, no quarterfinals. -/
def c3Store : Store :=
  { tournaments := [c3T]
    groups := [c3G]
    matchesTable :=
      [ mkMatch "r31" "t3" (some "g3") "a" "b" "regular" "played" (some { home := 2, visitor := 1 }) ] }

/-- Tournament of the score-recording scenarios (C7, C8). -/
def c7T : domain.Tournament :=
  { id := "t7", name := "T7"
    format := { numberOfGroups := 1, maxTeamsPerGroup := 4
                type := domain.TournamentType.ROUND_ROBIN } }

/-- Store of the C7 scenario: one pending regular match and one
pending quarterfinal match. -/
def c7Store : Store :=
  { tournaments := [c7T]
    groups := []
    matchesTable :=
      [ mkMatch "m7r" "t7" (some "g7") "a" "b" "regular" "pending" none
      , mkMatch "m7q" "t7" none "c" "d" "quarterfinals" "pending" none ] }

/-- Store of the C8 scenario before any score write. -/
def c8Store : Store :=
  { tournaments := [c7T]
    groups := []
    matchesTable := [ mkMatch "m8" "t7" (some "g8") "a" "b" "regular" "pending" none ] }

/-- The C8 store after the first score write. -/
def c8Mid : Store :=
  (MatchDelegate.UpdateScore c8Store "t7" "m8" { home := 3, visitor := 0 }).2

end Fixtures

namespace PlayoffGenerationService

/-- Written from the words of the spec and of claim C5 only, for
comparison with CalculateGroupStandings: zero-initialize one standing
per roster team in roster (encounter) order, fold the played matches
without reordering, compute goal differences, and stable-sort by the
three criteria, so that teams equal on all three criteria stay in
encounter order. -/
def claimEncounterStandings (roster : List domain.Team) (ms : List domain.Match) :
    List TeamStanding :=
  let init := roster.map (fun t => { defaultStanding with team := t })
  let step := fun (l : List TeamStanding) (m : domain.Match) =>
    if m.status = "played" then
      match m.score with
      | none => l
      | some sc =>
        l.map (fun st =>
          if st.team.Id = m.home.id then
            { st with
              wins := st.wins + (if sc.home > sc.visitor then 1 else 0)
              goalsFor := st.goalsFor + sc.home
              goalsAgainst := st.goalsAgainst + sc.visitor }
          else if st.team.Id = m.visitor.id then
            { st with
              wins := st.wins + (if sc.visitor > sc.home then 1 else 0)
              goalsFor := st.goalsFor + sc.visitor
              goalsAgainst := st.goalsAgainst + sc.home }
          else st)
    else l
  let folded := ms.foldl step init
  sortStandings (folded.map (fun st =>
    { st with goalDifference := st.goalsFor - st.goalsAgainst }))

end PlayoffGenerationService

namespace Fixtures

/-- Tournament of the C5 tie-order scenario. -/
def c5T : domain.Tournament :=
  { id := "t5", name := "T5"
    format := { numberOfGroups := 1, maxTeamsPerGroup := 2
                type := domain.TournamentType.ROUND_ROBIN } }

/-- Group of the C5 scenario: encounter order is b before a. -/
def c5G : domain.Group :=
  { id := "g5", tournamentId := "t5", name := "G5", teams := [mkTeam "b", mkTeam "a"] }

/-- Store of the C5 scenario: the two roster teams have no played
match, so they tie on all three criteria. -/
def c5Store : Store :=
  { tournaments := [c5T], groups := [c5G], matchesTable := [] }

end Fixtures

namespace MatchGenerationService

/-- The ordered index pairs the round-robin double loop visits, in
loop order; used to reason about the generated match list. -/
def rrIndexPairs (n : Nat) : List (Nat × Nat) :=
  (List.range n).flatMap (fun i =>
    (List.range n).filterMap (fun j => if i = j then none else some (i, j)))

end MatchGenerationService

namespace Fixtures

/-- Tournament of the C2 round-robin scenario. -/
def c2T : domain.Tournament :=
  { id := "t2", name := "T2"
    format := { numberOfGroups := 1, maxTeamsPerGroup := 3
                type := domain.TournamentType.ROUND_ROBIN } }

/-- Group of the C2 scenario, at capacity with three distinct teams. -/
def c2G : domain.Group :=
  { id := "g2", tournamentId := "t2", name := "G2"
    teams := [mkTeam "a", mkTeam "b", mkTeam "c"] }

/-- Store of the C2 scenario: full group, no matches generated yet. -/
def c2Store : Store :=
  { tournaments := [c2T], groups := [c2G], matchesTable := [] }

end Fixtures

namespace PlayoffGenerationService

/-- The team GenerateQuarterfinals reads at position j of the top-2
list of one group (groupTopTeams indexing), totalized with the default
team like the vector indexing it models. -/
def topTeamOf (s : Store) (tid : String) (g : domain.Group) (j : Nat) : domain.Team :=
  (GetTopTeams (CalculateGroupStandings s tid g.id) 2).getD j { Id := "", Name := "" }

/-- A sequence of keyed counter updates applied through the map, used
to decompose the match loop body. -/
def bumpList (bs : List (String × Delta)) (st : StandingsMap) : StandingsMap :=
  bs.foldl (fun acc b => bump b.1 b.2 acc) st

/-- The keyed counter updates one match contributes, in the order the
loop body performs them. -/
def matchBumps (m : domain.Match) : List (String × Delta) :=
  if m.status = "played" then
    match m.score with
    | none => []
    | some sc =>
      [ (m.home.id, { dWins := 0, dGoalsFor := sc.home, dGoalsAgainst := 0 })
      , (m.home.id, { dWins := 0, dGoalsFor := 0, dGoalsAgainst := sc.visitor })
      , (m.visitor.id, { dWins := 0, dGoalsFor := sc.visitor, dGoalsAgainst := 0 })
      , (m.visitor.id, { dWins := 0, dGoalsFor := 0, dGoalsAgainst := sc.home }) ] ++
      (if sc.home > sc.visitor then
        [ (m.home.id, { dWins := 1, dGoalsFor := 0, dGoalsAgainst := 0 }) ]
      else if sc.visitor > sc.home then
        [ (m.visitor.id, { dWins := 1, dGoalsFor := 0, dGoalsAgainst := 0 }) ]
      else [])
  else []

/-- A default-constructed C++ Match: empty strings, no group id, no
score. -/
def defaultMatch : domain.Match :=
  { id := "", tournamentId := "", groupId := none
    home := { id := "", name := "" }, visitor := { id := "", name := "" }
    score := none, round := "", status := "" }

/-- The winner ids AdvanceWinners collects from a completed round, in
the order the round matches are stored. -/
def roundWinners (s : Store) (tid rnd : String) : List String :=
  (MatchRepository.FindByTournamentIdAndRound s tid rnd).filterMap
    (fun m => m.GetWinnerId)

/-- The next-round matches AdvanceWinners generates from a completed
round. -/
def advanceOutput (s : Store) (tid rnd nxt : String) : List domain.Match :=
  advancePairs tid nxt (MatchRepository.FindByTournamentIdAndRound s tid rnd) 0
    (roundWinners s tid rnd)

/-- The j-th placed team of a group by the standings calculation
(position j of the sorted standings). -/
def groupRank (s : Store) (tid : String) (g : domain.Group) (j : Nat) : domain.Team :=
  ((CalculateGroupStandings s tid g.id).getD j defaultStanding).team

/-- The four cross-rotation pairs GenerateQuarterfinals builds from
the first four groups (A1 with D2, B1 with C2, C1 with B2, D1 with A2). -/
def qfPairList (s : Store) (tid : String) (g0 g1 g2 g3 : domain.Group) :
    List (domain.Team × domain.Team) :=
  [ (topTeamOf s tid g0 0, topTeamOf s tid g3 1)
  , (topTeamOf s tid g1 0, topTeamOf s tid g2 1)
  , (topTeamOf s tid g2 0, topTeamOf s tid g1 1)
  , (topTeamOf s tid g3 0, topTeamOf s tid g0 1) ]

end PlayoffGenerationService

namespace Fixtures

/-- Tournament of the C4 cross-group seeding scenario. -/
def c4T : domain.Tournament :=
  { id := "t4", name := "T4"
    format := { numberOfGroups := 4, maxTeamsPerGroup := 2
                type := domain.TournamentType.ROUND_ROBIN } }

/-- A two-team group of the C4 and C10 scenarios. -/
def mkGroup2 (gid tid i1 i2 : String) : domain.Group :=
  { id := gid, tournamentId := tid, name := gid, teams := [mkTeam i1, mkTeam i2] }

/-- A played 2-0 regular match inside one group. -/
def mkPlayed20 (id tid gid hid vid : String) : domain.Match :=
  mkMatch id tid (some gid) hid vid "regular" "played"
    (some { home := 2, visitor := 0 })

/-- Store of the C4 scenario: exactly 4 groups of 2 ranked teams, all
regular matches played, no quarterfinals. -/
def c4Store : Store :=
  { tournaments := [c4T]
    groups := [ mkGroup2 "ga" "t4" "a1" "a2", mkGroup2 "gb" "t4" "b1" "b2"
              , mkGroup2 "gc" "t4" "c1" "c2", mkGroup2 "gd" "t4" "d1" "d2" ]
    matchesTable :=
      [ mkPlayed20 "ra" "t4" "ga" "a1" "a2", mkPlayed20 "rb" "t4" "gb" "b1" "b2"
      , mkPlayed20 "rc" "t4" "gc" "c1" "c2", mkPlayed20 "rd" "t4" "gd" "d1" "d2" ] }

/-- Store of the C10 scenario: five groups; the fifth group and its
teams must not reach the quarterfinals. -/
def c10Store : Store :=
  { tournaments := [ { id := "t10", name := "T10"
                       format := { numberOfGroups := 5, maxTeamsPerGroup := 2
                                   type := domain.TournamentType.ROUND_ROBIN } } ]
    groups := [ mkGroup2 "ga" "t10" "a1" "a2", mkGroup2 "gb" "t10" "b1" "b2"
              , mkGroup2 "gc" "t10" "c1" "c2", mkGroup2 "gd" "t10" "d1" "d2"
              , mkGroup2 "ge" "t10" "e1" "e2" ]
    matchesTable :=
      [ mkPlayed20 "ra" "t10" "ga" "a1" "a2", mkPlayed20 "rb" "t10" "gb" "b1" "b2"
      , mkPlayed20 "rc" "t10" "gc" "c1" "c2", mkPlayed20 "rd" "t10" "gd" "d1" "d2" ] }

/-- Store of the C6 scenario: four played quarterfinals with winners
a, c, e, g and no semifinals yet. -/
def c6Store : Store :=
  { tournaments := [ { id := "t6", name := "T6"
                       format := { numberOfGroups := 4, maxTeamsPerGroup := 2
                                   type := domain.TournamentType.ROUND_ROBIN } } ]
    groups := []
    matchesTable :=
      [ mkMatch "q1" "t6" none "a" "b" "quarterfinals" "played" (some { home := 1, visitor := 0 })
      , mkMatch "q2" "t6" none "c" "d" "quarterfinals" "played" (some { home := 2, visitor := 1 })
      , mkMatch "q3" "t6" none "e" "f" "quarterfinals" "played" (some { home := 3, visitor := 0 })
      , mkMatch "q4" "t6" none "g" "h" "quarterfinals" "played" (some { home := 2, visitor := 0 }) ] }

/-- Group of the C9 permutation scenario. -/
def c9G : domain.Group :=
  { id := "g9", tournamentId := "t9", name := "G9", teams := [mkTeam "a", mkTeam "b"] }

/-- C9 store with matches in one order. -/
def c9StoreA : Store :=
  { tournaments := []
    groups := [c9G]
    matchesTable :=
      [ mkMatch "m1" "t9" (some "g9") "a" "b" "regular" "played" (some { home := 2, visitor := 1 })
      , mkMatch "m2" "t9" (some "g9") "b" "a" "regular" "played" (some { home := 3, visitor := 3 }) ] }

/-- C9 store with the same matches permuted. -/
def c9StoreB : Store :=
  { tournaments := []
    groups := [c9G]
    matchesTable :=
      [ mkMatch "m2" "t9" (some "g9") "b" "a" "regular" "played" (some { home := 3, visitor := 3 })
      , mkMatch "m1" "t9" (some "g9") "a" "b" "regular" "played" (some { home := 2, visitor := 1 }) ] }

end Fixtures

namespace PlayoffGenerationService

/-- Whether the match loop counts a match: status played and a score
present; any other match contributes nothing to the standings. -/
def isCounted (m : domain.Match) : Bool :=
  m.status == "played" && m.score.isSome

/-- The key-and-team signature of the standings map: the match loop
changes only the counters, never this signature, once every
participating team is a key. -/
def standingsSig (l : StandingsMap) : List (String × domain.Team) :=
  l.map (fun p => (p.1, p.2.team))

/-- The std::map invariant: keys in strictly ascending order. -/
def KeysSorted (l : StandingsMap) : Prop :=
  (l.map Prod.fst).Pairwise (fun a b => strLt a b = true)

/-- Every mapped standing carries the team whose id is its key. -/
def TeamKey (l : StandingsMap) : Prop :=
  ∀ p ∈ l, p.2.team.Id = p.1

end PlayoffGenerationService

section RepositoryLemmas

/-- A group returned by FindByTournamentIdAndGroupId carries the
requested group id and tournament id. -/
lemma find_group_props {s : Store} {tid gid : String} {g : domain.Group}
    (h : GroupRepository.FindByTournamentIdAndGroupId s tid gid = some g) :
    g.id = gid ∧ g.tournamentId = tid := by
  unfold GroupRepository.FindByTournamentIdAndGroupId at h
  cases hfl : s.groups.filter (fun g2 => g2.id == gid && g2.tournamentId == tid) with
  | nil => rw [hfl] at h; simp at h
  | cons a t =>
    rw [hfl] at h
    simp only [List.head?_cons, Option.some.injEq] at h
    have ha : a ∈ s.groups.filter (fun g2 => g2.id == gid && g2.tournamentId == tid) := by
      rw [hfl]; exact List.mem_cons_self a t
    have hp := List.of_mem_filter ha
    rw [← h]
    simpa using hp

/-- A match returned by ReadById is stored and carries the requested
id. -/
lemma readById_match_props {s : Store} {mid : String} {m : domain.Match}
    (h : MatchRepository.ReadById s mid = some m) :
    m ∈ s.matchesTable ∧ m.id = mid := by
  unfold MatchRepository.ReadById at h
  refine ⟨List.mem_of_find?_eq_some h, ?_⟩
  have hp := List.find?_some h
  simpa using hp

/-- After mapping the single-row replacement of Update over the table,
looking the id up again yields the replacement. -/
lemma find?_map_update {l : List domain.Match} {mid : String} {m m2 : domain.Match}
    (h : l.find? (fun x => x.id == mid) = some m) (hid : m2.id = mid) :
    (l.map (fun x => if x.id == m2.id then m2 else x)).find? (fun x => x.id == mid) =
      some m2 := by
  induction l with
  | nil => simp at h
  | cons a t ih =>
    by_cases ha : (a.id == mid) = true
    · have hmid2 : (a.id == m2.id) = true := by
        rw [hid]; exact ha
      have hm2 : (m2.id == mid) = true := by
        rw [hid]; exact beq_self_eq_true mid
      simp only [List.map_cons, List.find?_cons, hmid2, if_true, hm2]
    · have hfind : t.find? (fun x => x.id == mid) = some m := by
        rw [List.find?_cons] at h
        simpa only [ha] using h
      have hmid2 : (a.id == m2.id) = false := by
        rw [hid]; simpa using ha
      have ha2 : (a.id == mid) = false := by simpa using ha
      simp only [List.map_cons, List.find?_cons, hmid2, Bool.false_eq_true, if_false, ha2]
      exact ih hfind

end RepositoryLemmas

section UpdateScoreLemmas

/-- A score write through UpdateScore that passes every validation
succeeds and replaces the stored match with its SetScore image. -/
lemma updateScore_ok {s : Store} {tid mid : String} {sc : domain.Score}
    {t : domain.Tournament} {m : domain.Match}
    (ht : TournamentRepository.ReadById s tid = some t)
    (hm : MatchRepository.ReadById s mid = some m)
    (hb : m.tournamentId = tid)
    (hmid : mid ≠ "")
    (h0 : ¬(sc.home < 0 ∨ sc.visitor < 0))
    (h10 : ¬(sc.home > 10 ∨ sc.visitor > 10))
    (htie : ¬(sc.home = sc.visitor ∧ m.round ≠ "regular")) :
    (MatchDelegate.UpdateScore s tid mid sc).1 = Except.ok () ∧
    MatchRepository.ReadById (MatchDelegate.UpdateScore s tid mid sc).2 mid =
      some (m.SetScore sc) := by
  obtain ⟨hmem, hid⟩ := readById_match_props hm
  have hsid : (m.SetScore sc).id = mid := by
    simp [domain.Match.SetScore, hid]
  have hany : s.matchesTable.any (fun x => x.id == (m.SetScore sc).id) = true := by
    rw [List.any_eq_true]
    exact ⟨m, hmem, by rw [hsid, hid]; exact beq_self_eq_true mid⟩
  have hupd : MatchRepository.Update s (m.SetScore sc) =
      ((m.SetScore sc).id,
        { s with matchesTable :=
            s.matchesTable.map (fun x => if x.id == (m.SetScore sc).id then m.SetScore sc else x) }) := by
    unfold MatchRepository.Update
    rw [if_pos hany]
  unfold MatchDelegate.UpdateScore
  rw [ht, hm]
  simp only [hupd]
  rw [if_neg (by simp [hb]), if_neg h0, if_neg h10, if_neg htie, if_neg (by rw [hsid]; exact hmid)]
  refine ⟨rfl, ?_⟩
  unfold MatchRepository.ReadById at hm ⊢
  exact find?_map_update hm hsid

end UpdateScoreLemmas

/-- C7: for a score-recording request on an existing match of its
tournament, UpdateScore rejects a negative value, rejects a value
above 10, rejects a tied score outside the regular round with the
ties-not-allowed error, accepts a tied score on a regular match, and
on differing values the stored match names the side with the higher
value as winner. -/
theorem c7_update_score_validation (s : Store) (tid mid : String) (sc : domain.Score)
    (t : domain.Tournament) (m : domain.Match)
    (ht : TournamentRepository.ReadById s tid = some t)
    (hm : MatchRepository.ReadById s mid = some m)
    (hb : m.tournamentId = tid)
    (hmid : mid ≠ "") :
    ((sc.home < 0 ∨ sc.visitor < 0) →
      (MatchDelegate.UpdateScore s tid mid sc).1 = Except.error "Score cannot be negative")
    ∧ (0 ≤ sc.home → 0 ≤ sc.visitor → (sc.home > 10 ∨ sc.visitor > 10) →
      (MatchDelegate.UpdateScore s tid mid sc).1 =
        Except.error "Score must be between 0 and 10")
    ∧ (0 ≤ sc.home → 0 ≤ sc.visitor → sc.home ≤ 10 → sc.visitor ≤ 10 →
        sc.home = sc.visitor → m.round ≠ "regular" →
      (MatchDelegate.UpdateScore s tid mid sc).1 =
        Except.error "Ties are not allowed in playoff rounds")
    ∧ (0 ≤ sc.home → 0 ≤ sc.visitor → sc.home ≤ 10 → sc.visitor ≤ 10 →
        sc.home = sc.visitor → m.round = "regular" →
      (MatchDelegate.UpdateScore s tid mid sc).1 = Except.ok () ∧
      MatchRepository.ReadById (MatchDelegate.UpdateScore s tid mid sc).2 mid =
        some (m.SetScore sc))
    ∧ (0 ≤ sc.home → 0 ≤ sc.visitor → sc.home ≤ 10 → sc.visitor ≤ 10 →
        sc.home ≠ sc.visitor →
      (MatchDelegate.UpdateScore s tid mid sc).1 = Except.ok () ∧
      MatchRepository.ReadById (MatchDelegate.UpdateScore s tid mid sc).2 mid =
        some (m.SetScore sc) ∧
      (m.SetScore sc).GetWinnerId =
        some (if sc.visitor < sc.home then m.home.id else m.visitor.id)) := by
  refine ⟨?_, ?_, ?_, ?_, ?_⟩
  · intro hneg
    unfold MatchDelegate.UpdateScore
    simp only [ht, hm]
    rw [if_neg (by simp [hb]), if_pos hneg]
  · intro h1 h2 hover
    unfold MatchDelegate.UpdateScore
    simp only [ht, hm]
    rw [if_neg (by simp [hb]), if_neg (by omega), if_pos hover]
  · intro h1 h2 h3 h4 heq hreg
    unfold MatchDelegate.UpdateScore
    simp only [ht, hm]
    rw [if_neg (by simp [hb]), if_neg (by omega), if_neg (by omega), if_pos ⟨heq, hreg⟩]
  · intro h1 h2 h3 h4 heq hreg
    exact @updateScore_ok s tid mid sc t m ht hm hb hmid (by omega) (by omega)
      (by intro hc; exact hc.2 hreg)
  · intro h1 h2 h3 h4 hne
    have hmain := @updateScore_ok s tid mid sc t m ht hm hb hmid (by omega) (by omega)
      (by intro hc; exact hne hc.1)
    refine ⟨hmain.1, hmain.2, ?_⟩
    simp only [domain.Match.SetScore, domain.Match.GetWinnerId]
    by_cases hgt : sc.visitor < sc.home
    · rw [if_pos hgt, if_pos hgt]
    · rw [if_neg hgt, if_neg hgt, if_pos (by omega)]

/-- C7 witness: concrete score writes on the C7 store.  A 2-2 tie on
the regular match succeeds, a 2-2 tie on the quarterfinal match fails
with the ties error, 11-5 fails range validation, a negative value
fails, and a 3-1 regular result names the home side as winner. -/
theorem c7_update_score_validation_witness :
    (MatchDelegate.UpdateScore Fixtures.c7Store "t7" "m7r"
      { home := 2, visitor := 2 }).1 = Except.ok () ∧
    (MatchDelegate.UpdateScore Fixtures.c7Store "t7" "m7q"
      { home := 2, visitor := 2 }).1 =
        Except.error "Ties are not allowed in playoff rounds" ∧
    (MatchDelegate.UpdateScore Fixtures.c7Store "t7" "m7r"
      { home := 11, visitor := 5 }).1 =
        Except.error "Score must be between 0 and 10" ∧
    (MatchDelegate.UpdateScore Fixtures.c7Store "t7" "m7r"
      { home := -1, visitor := 0 }).1 = Except.error "Score cannot be negative" ∧
    ((Fixtures.mkMatch "m7r" "t7" (some "g7") "a" "b" "regular" "pending" none).SetScore
      { home := 3, visitor := 1 }).GetWinnerId = some "a" := by
  have hr := c7_update_score_validation Fixtures.c7Store "t7" "m7r"
    { home := 3, visitor := 1 } Fixtures.c7T
    (Fixtures.mkMatch "m7r" "t7" (some "g7") "a" "b" "regular" "pending" none)
    rfl rfl rfl (by decide)
  have hr22 := c7_update_score_validation Fixtures.c7Store "t7" "m7r"
    { home := 2, visitor := 2 } Fixtures.c7T
    (Fixtures.mkMatch "m7r" "t7" (some "g7") "a" "b" "regular" "pending" none)
    rfl rfl rfl (by decide)
  have hq22 := c7_update_score_validation Fixtures.c7Store "t7" "m7q"
    { home := 2, visitor := 2 } Fixtures.c7T
    (Fixtures.mkMatch "m7q" "t7" none "c" "d" "quarterfinals" "pending" none)
    rfl rfl rfl (by decide)
  have hr115 := c7_update_score_validation Fixtures.c7Store "t7" "m7r"
    { home := 11, visitor := 5 } Fixtures.c7T
    (Fixtures.mkMatch "m7r" "t7" (some "g7") "a" "b" "regular" "pending" none)
    rfl rfl rfl (by decide)
  have hrneg := c7_update_score_validation Fixtures.c7Store "t7" "m7r"
    { home := -1, visitor := 0 } Fixtures.c7T
    (Fixtures.mkMatch "m7r" "t7" (some "g7") "a" "b" "regular" "pending" none)
    rfl rfl rfl (by decide)
  refine ⟨(hr22.2.2.2.1 (by decide) (by decide) (by decide) (by decide) rfl rfl).1,
    hq22.2.2.1 (by decide) (by decide) (by decide) (by decide) rfl (by decide),
    hr115.2.1 (by decide) (by decide) (by decide),
    hrneg.1 (by decide),
    ((hr.2.2.2.2 (by decide) (by decide) (by decide) (by decide) (by decide)).2.2).trans
      (by decide)⟩

/-- C8 counterexample: after a first UpdateScore call has written a
score and marked the match played, a second UpdateScore call with a
different valid score also succeeds and overwrites the stored score,
so the match is mutated again after its first score write. -/
theorem c8_counterexample :
    (MatchDelegate.UpdateScore Fixtures.c8Store "t7" "m8"
      { home := 3, visitor := 0 }).1 = Except.ok () ∧
    (MatchRepository.ReadById Fixtures.c8Mid "m8").map (fun m => m.status) =
      some "played" ∧
    (MatchRepository.ReadById Fixtures.c8Mid "m8").map (fun m => m.score) =
      some (some { home := 3, visitor := 0 }) ∧
    (MatchDelegate.UpdateScore Fixtures.c8Mid "t7" "m8"
      { home := 0, visitor := 5 }).1 = Except.ok () ∧
    (MatchRepository.ReadById
        (MatchDelegate.UpdateScore Fixtures.c8Mid "t7" "m8"
          { home := 0, visitor := 5 }).2 "m8").map (fun m => m.score) =
      some (some { home := 0, visitor := 5 }) ∧
    (MatchDelegate.UpdateScore Fixtures.c8Mid "t7" "m8"
      { home := 0, visitor := 5 }).2 ≠ Fixtures.c8Mid := by
  exact ⟨rfl, rfl, rfl, rfl, rfl, by decide⟩

/-- C8 corrected: UpdateScore has no write-once guard.  For a stored
match that is already played, any further UpdateScore call that passes
the range and tie validations succeeds and replaces the stored score
with the new one, mutating the match again. -/
theorem c8_score_rewrite_allowed (s : Store) (tid mid : String) (sc : domain.Score)
    (t : domain.Tournament) (m : domain.Match)
    (ht : TournamentRepository.ReadById s tid = some t)
    (hm : MatchRepository.ReadById s mid = some m)
    (hb : m.tournamentId = tid)
    (hmid : mid ≠ "")
    (hplayed : m.status = "played")
    (h0 : ¬(sc.home < 0 ∨ sc.visitor < 0))
    (h10 : ¬(sc.home > 10 ∨ sc.visitor > 10))
    (htie : ¬(sc.home = sc.visitor ∧ m.round ≠ "regular")) :
    (MatchDelegate.UpdateScore s tid mid sc).1 = Except.ok () ∧
    MatchRepository.ReadById (MatchDelegate.UpdateScore s tid mid sc).2 mid =
      some (m.SetScore sc) ∧
    (m.SetScore sc).score = some sc := by
  have hmain := @updateScore_ok s tid mid sc t m ht hm hb hmid h0 h10 htie
  exact ⟨hmain.1, hmain.2, rfl⟩

/-- C8 witness: the corrected statement applied to the played match of
the C8 store with a second, different score. -/
theorem c8_score_rewrite_allowed_witness :
    (MatchRepository.ReadById Fixtures.c8Mid "m8").map (fun m => m.status) =
      some "played" ∧
    (MatchDelegate.UpdateScore Fixtures.c8Mid "t7" "m8"
      { home := 1, visitor := 2 }).1 = Except.ok () ∧
    MatchRepository.ReadById
      (MatchDelegate.UpdateScore Fixtures.c8Mid "t7" "m8"
        { home := 1, visitor := 2 }).2 "m8" =
      some ((Fixtures.mkMatch "m8" "t7" (some "g8") "a" "b" "regular" "played"
        (some { home := 3, visitor := 0 })).SetScore { home := 1, visitor := 2 }) := by
  have h := c8_score_rewrite_allowed Fixtures.c8Mid "t7" "m8"
    { home := 1, visitor := 2 } Fixtures.c7T
    (Fixtures.mkMatch "m8" "t7" (some "g8") "a" "b" "regular" "played"
      (some { home := 3, visitor := 0 }))
    rfl rfl rfl (by decide) rfl (by decide) (by decide) (by decide)
  exact ⟨rfl, h.1, h.2.1⟩

section GuardLemmas

/-- GenerateRoundRobinMatches hits the existence check before any
write and returns its error, leaving the store untouched. -/
lemma generateRR_already {s : Store} {tid gid : String}
    {t : domain.Tournament} {g : domain.Group}
    (ht : TournamentRepository.ReadById s tid = some t)
    (hg : GroupRepository.FindByTournamentIdAndGroupId s tid gid = some g)
    (hex : MatchRepository.ExistsByGroupId s gid = true) :
    MatchGenerationService.GenerateRoundRobinMatches s tid gid =
      (Except.error "Matches already generated for this group", s) := by
  have hb := (find_group_props hg).2
  unfold MatchGenerationService.GenerateRoundRobinMatches
  simp only [ht, hg]
  rw [if_neg (by simp [hb]), if_pos hex]

/-- GenerateQuarterfinals hits the existence check before any write
and returns its error, leaving the store untouched. -/
lemma generateQF_already {s : Store} {tid : String} {t : domain.Tournament}
    (ht : TournamentRepository.ReadById s tid = some t)
    (hc : PlayoffGenerationService.AreAllGroupMatchesCompleted s tid = true)
    (hqf : MatchRepository.FindByTournamentIdAndRound s tid "quarterfinals" ≠ []) :
    PlayoffGenerationService.GenerateQuarterfinals s tid =
      (Except.error "Quarterfinals already generated", s) := by
  unfold PlayoffGenerationService.GenerateQuarterfinals
  simp only [ht, hc]
  rw [if_neg (by simp), if_pos (by simpa using hqf)]

/-- The advancement body is a success no-op when the next round
already exists. -/
lemma advanceFrom_next_exists {s : Store} {tid rnd nxt : String} {n : Nat}
    (h1 : n ≤ (MatchRepository.FindByTournamentIdAndRound s tid rnd).length)
    (h2 : ∀ m ∈ MatchRepository.FindByTournamentIdAndRound s tid rnd,
      m.status = "played")
    (h3 : n ≤ ((MatchRepository.FindByTournamentIdAndRound s tid rnd).filterMap
      (fun m => m.GetWinnerId)).length)
    (h4 : MatchRepository.FindByTournamentIdAndRound s tid nxt ≠ []) :
    PlayoffGenerationService.advanceFrom s tid rnd nxt n = (Except.ok (), s) := by
  unfold PlayoffGenerationService.advanceFrom
  have hany : (MatchRepository.FindByTournamentIdAndRound s tid rnd).any
      (fun m => m.status != "played") = false := by
    rw [List.any_eq_false]
    intro m hmem
    simp [h2 m hmem]
  rw [if_neg (by omega), hany]
  rw [if_neg (by simp), if_neg (by omega), if_pos (by simpa using h4)]

end GuardLemmas

/-- C1 corrected: every generation step re-checks whether its output
already exists immediately before writing and writes nothing when it
does, but only AdvanceWinners returns success as a no-op;
GenerateRoundRobinMatches and GenerateQuarterfinals return dedicated
errors instead. -/
theorem c1_existing_output_guard (s : Store) (tid gid : String) :
    ((∃ t, TournamentRepository.ReadById s tid = some t) →
      (∃ g, GroupRepository.FindByTournamentIdAndGroupId s tid gid = some g) →
      MatchRepository.ExistsByGroupId s gid = true →
      MatchGenerationService.GenerateRoundRobinMatches s tid gid =
        (Except.error "Matches already generated for this group", s))
    ∧
    ((∃ t, TournamentRepository.ReadById s tid = some t) →
      PlayoffGenerationService.AreAllGroupMatchesCompleted s tid = true →
      MatchRepository.FindByTournamentIdAndRound s tid "quarterfinals" ≠ [] →
      PlayoffGenerationService.GenerateQuarterfinals s tid =
        (Except.error "Quarterfinals already generated", s))
    ∧
    ((∃ t, TournamentRepository.ReadById s tid = some t) →
      4 ≤ (MatchRepository.FindByTournamentIdAndRound s tid "quarterfinals").length →
      (∀ m ∈ MatchRepository.FindByTournamentIdAndRound s tid "quarterfinals",
        m.status = "played") →
      4 ≤ ((MatchRepository.FindByTournamentIdAndRound s tid "quarterfinals").filterMap
        (fun m => m.GetWinnerId)).length →
      MatchRepository.FindByTournamentIdAndRound s tid "semifinals" ≠ [] →
      PlayoffGenerationService.AdvanceWinners s tid "quarterfinals" = (Except.ok (), s))
    ∧
    ((∃ t, TournamentRepository.ReadById s tid = some t) →
      2 ≤ (MatchRepository.FindByTournamentIdAndRound s tid "semifinals").length →
      (∀ m ∈ MatchRepository.FindByTournamentIdAndRound s tid "semifinals",
        m.status = "played") →
      2 ≤ ((MatchRepository.FindByTournamentIdAndRound s tid "semifinals").filterMap
        (fun m => m.GetWinnerId)).length →
      MatchRepository.FindByTournamentIdAndRound s tid "finals" ≠ [] →
      PlayoffGenerationService.AdvanceWinners s tid "semifinals" = (Except.ok (), s)) := by
  refine ⟨?_, ?_, ?_, ?_⟩
  · rintro ⟨t, ht⟩ ⟨g, hg⟩ hex
    exact generateRR_already ht hg hex
  · rintro ⟨t, ht⟩ hc hqf
    exact generateQF_already ht hc hqf
  · rintro ⟨t, ht⟩ h1 h2 h3 h4
    unfold PlayoffGenerationService.AdvanceWinners
    simp only [ht]
    rw [if_pos trivial]
    exact advanceFrom_next_exists h1 h2 h3 h4
  · rintro ⟨t, ht⟩ h1 h2 h3 h4
    unfold PlayoffGenerationService.AdvanceWinners
    simp only [ht]
    rw [if_pos trivial]
    exact advanceFrom_next_exists h1 h2 h3 h4

/-- C1 counterexample: on a store where group matches and
quarterfinals already exist, GenerateRoundRobinMatches and
GenerateQuarterfinals return errors rather than the success no-op the
claim requires (AdvanceWinners alone is a success no-op there). -/
theorem c1_counterexample :
    MatchRepository.ExistsByGroupId Fixtures.c1Store "g1" = true ∧
    (MatchGenerationService.GenerateRoundRobinMatches Fixtures.c1Store "t1" "g1").1 =
      Except.error "Matches already generated for this group" ∧
    (MatchGenerationService.GenerateRoundRobinMatches Fixtures.c1Store "t1" "g1").1 ≠
      Except.ok () ∧
    MatchRepository.FindByTournamentIdAndRound Fixtures.c1Store "t1" "quarterfinals" ≠ [] ∧
    (PlayoffGenerationService.GenerateQuarterfinals Fixtures.c1Store "t1").1 =
      Except.error "Quarterfinals already generated" ∧
    (PlayoffGenerationService.GenerateQuarterfinals Fixtures.c1Store "t1").1 ≠
      Except.ok () := by
  refine ⟨rfl, rfl, ?_, by decide, rfl, ?_⟩
  · rw [show (MatchGenerationService.GenerateRoundRobinMatches Fixtures.c1Store "t1" "g1").1 =
      Except.error "Matches already generated for this group" from rfl]
    intro h
    exact Except.noConfusion h
  · rw [show (PlayoffGenerationService.GenerateQuarterfinals Fixtures.c1Store "t1").1 =
      Except.error "Quarterfinals already generated" from rfl]
    intro h
    exact Except.noConfusion h

/-- C1 witness: the corrected statement applied to the C1 store, where
the output of every generation step already exists. -/
theorem c1_existing_output_guard_witness :
    MatchRepository.ExistsByGroupId Fixtures.c1Store "g1" = true ∧
    MatchGenerationService.GenerateRoundRobinMatches Fixtures.c1Store "t1" "g1" =
      (Except.error "Matches already generated for this group", Fixtures.c1Store) ∧
    PlayoffGenerationService.GenerateQuarterfinals Fixtures.c1Store "t1" =
      (Except.error "Quarterfinals already generated", Fixtures.c1Store) ∧
    PlayoffGenerationService.AdvanceWinners Fixtures.c1Store "t1" "quarterfinals" =
      (Except.ok (), Fixtures.c1Store) ∧
    PlayoffGenerationService.AdvanceWinners Fixtures.c1Store "t1" "semifinals" =
      (Except.ok (), Fixtures.c1Store) := by
  have h := c1_existing_output_guard Fixtures.c1Store "t1" "g1"
  refine ⟨by decide,
    h.1 ⟨Fixtures.c1T, rfl⟩ ⟨Fixtures.c1G, rfl⟩ (by decide),
    h.2.1 ⟨Fixtures.c1T, rfl⟩ rfl (by decide),
    h.2.2.1 ⟨Fixtures.c1T, rfl⟩ (by decide) (by decide) (by decide) (by decide),
    h.2.2.2 ⟨Fixtures.c1T, rfl⟩ (by decide) (by decide) (by decide) (by decide)⟩

/-- C3: on a tournament whose topology is a single group of 8 ranked
teams with all regular matches played and no existing quarterfinals,
GenerateQuarterfinals does not select a single-pool seeding mode; it
fails unconditionally with the four-groups error.  No single-pool path
exists in the service, although its own tests expect one (the
GenerateQuarterfinals success test uses one 16-team group and expects
1v8, 4v5, 2v7, 3v6 seeding, and the insufficient-teams test expects
the error text about needing 8 teams, which appears nowhere in the
service). -/
theorem c3_single_pool_missing :
    TournamentRepository.ReadById Fixtures.c3Store "t3" = some Fixtures.c3T ∧
    (GroupRepository.FindByTournamentId Fixtures.c3Store "t3").length = 1 ∧
    8 ≤ (PlayoffGenerationService.CalculateGroupStandings
      Fixtures.c3Store "t3" "g3").length ∧
    PlayoffGenerationService.AreAllGroupMatchesCompleted Fixtures.c3Store "t3" = true ∧
    MatchRepository.FindByTournamentIdAndRound Fixtures.c3Store "t3" "quarterfinals" = [] ∧
    PlayoffGenerationService.GenerateQuarterfinals Fixtures.c3Store "t3" =
      (Except.error "Tournament must have at least 4 groups for playoffs",
        Fixtures.c3Store) := by
  exact ⟨rfl, rfl, by decide, rfl, rfl, rfl⟩

section RoundRobinLemmas

open MatchGenerationService

/-- The generated round-robin list is the image of the visited index
pairs. -/
lemma roundRobinMatches_eq_map (tid gid : String) (teams : List domain.Team) :
    roundRobinMatches tid gid teams =
      (rrIndexPairs teams.length).map (fun p => rrMatch tid gid teams p.1 p.2) := by
  unfold roundRobinMatches rrIndexPairs
  rw [List.map_flatMap]
  congr 1
  funext i
  rw [List.map_filterMap]
  congr 1
  funext j
  by_cases h : i = j <;> simp [h]

/-- Membership in the visited index pairs. -/
lemma mem_rrIndexPairs {n : Nat} {p : Nat × Nat} :
    p ∈ rrIndexPairs n ↔ p.1 < n ∧ p.2 < n ∧ p.1 ≠ p.2 := by
  unfold rrIndexPairs
  simp only [List.mem_flatMap, List.mem_filterMap, List.mem_range]
  constructor
  · rintro ⟨i, hi, j, hj, hij⟩
    by_cases h : i = j
    · simp [h] at hij
    · simp only [if_neg h, Option.some.injEq] at hij
      rw [← hij]
      exact ⟨hi, hj, h⟩
  · rintro ⟨h1, h2, h3⟩
    exact ⟨p.1, h1, p.2, h2, by simp [h3]⟩

/-- Length of a filterMap that skips exactly the occurrences of one
index. -/
lemma length_filterMap_skip {α : Type} (i : Nat) (f : Nat → α) :
    ∀ l : List Nat,
      (l.filterMap (fun j => if i = j then none else some (f j))).length =
        l.length - l.count i
  | [] => rfl
  | a :: t => by
    have ih := length_filterMap_skip i f t
    have hcl := List.count_le_length i t
    by_cases h : i = a
    · subst h
      have hcons : (i :: t).filterMap (fun j => if i = j then none else some (f j)) =
          t.filterMap (fun j => if i = j then none else some (f j)) := by
        rw [List.filterMap_cons, if_pos rfl]
      rw [hcons, List.count_cons_self, List.length_cons, ih]
      omega
    · have hcons : (a :: t).filterMap (fun j => if i = j then none else some (f j)) =
          f a :: t.filterMap (fun j => if i = j then none else some (f j)) := by
        rw [List.filterMap_cons, if_neg h]
      rw [hcons, List.length_cons, List.length_cons, List.count_cons_of_ne h, ih]
      omega

/-- The double loop visits exactly n times (n minus 1) pairs. -/
lemma length_rrIndexPairs (n : Nat) : (rrIndexPairs n).length = n * (n - 1) := by
  unfold rrIndexPairs
  rw [List.length_flatMap]
  have hcongr : List.map
      (List.length ∘ fun i => (List.range n).filterMap
        (fun j => if i = j then none else some (i, j))) (List.range n) =
      List.map (fun _ => n - 1) (List.range n) := by
    apply List.map_congr_left
    intro i hi
    simp only [Function.comp]
    rw [length_filterMap_skip i (fun j => (i, j)) (List.range n)]
    rw [List.count_eq_one_of_mem (List.nodup_range n) hi, List.length_range]
  rw [hcongr]
  have hrep : List.map (fun _ => n - 1) (List.range n) = List.replicate n (n - 1) := by
    have := List.map_const (List.range n) (n - 1)
    simpa [Function.const] using this
  rw [hrep, List.sum_replicate, smul_eq_mul]

/-- Every visited pair has the loop index as its first component. -/
lemma rrIndexPairs_fst {n i : Nat} {b : Nat × Nat}
    (hb : b ∈ (List.range n).filterMap (fun j => if i = j then none else some (i, j))) :
    b.1 = i := by
  rw [List.mem_filterMap] at hb
  obtain ⟨a, _, ha⟩ := hb
  by_cases h : i = a
  · simp [h] at ha
  · simp only [if_neg h, Option.some.injEq] at ha
    rw [← ha]

/-- The visited index pairs are pairwise distinct. -/
lemma nodup_rrIndexPairs (n : Nat) : (rrIndexPairs n).Nodup := by
  unfold rrIndexPairs
  rw [List.nodup_flatMap]
  constructor
  · intro i _
    apply List.Nodup.filterMap ?_ (List.nodup_range n)
    intro a a2 b hb hb2
    by_cases h : i = a
    · simp [h] at hb
    · by_cases h2 : i = a2
      · simp [h2] at hb2
      · simp only [if_neg h, Option.mem_def, Option.some.injEq] at hb
        simp only [if_neg h2, Option.mem_def, Option.some.injEq] at hb2
        rw [← hb2] at hb
        exact ((Prod.mk.injEq _ _ _ _).mp hb).2
  · apply List.Pairwise.imp ?_ (List.nodup_range n)
    intro i j hij b hbi hbj
    exact hij ((rrIndexPairs_fst hbi) ▸ (rrIndexPairs_fst hbj) ▸ rfl)

/-- Distinct roster positions carry distinct team ids when the mapped
id list has no duplicates. -/
lemma teamId_inj {teams : List domain.Team}
    (h : (teams.map (fun tm => tm.Id)).Nodup)
    {a b : Nat} (ha : a < teams.length) (hb : b < teams.length)
    (heq : (teams.getD a { Id := "", Name := "" }).Id =
      (teams.getD b { Id := "", Name := "" }).Id) : a = b := by
  rw [List.getD_eq_getElem _ _ ha, List.getD_eq_getElem _ _ hb] at heq
  have hinj := List.nodup_iff_injective_get.mp h
  have hma : a < (teams.map (fun tm => tm.Id)).length := by simpa using ha
  have hmb : b < (teams.map (fun tm => tm.Id)).length := by simpa using hb
  have hget : (teams.map (fun tm => tm.Id)).get ⟨a, hma⟩ =
      (teams.map (fun tm => tm.Id)).get ⟨b, hmb⟩ := by
    simp only [List.get_eq_getElem, List.getElem_map]
    exact heq
  exact congrArg Fin.val (hinj hget)

end RoundRobinLemmas

/-- C2: for a full group with pairwise distinct team ids,
GenerateRoundRobinMatches appends exactly one match per ordered roster
index pair (i, j) with i different from j, team i home and team j
visitor, N times (N minus 1) matches in total, each with round
regular, status pending, no score, and distinct home and visitor team
ids. -/
theorem c2_round_robin_generation (s : Store) (tid gid : String)
    (t : domain.Tournament) (g : domain.Group)
    (ht : TournamentRepository.ReadById s tid = some t)
    (hg : GroupRepository.FindByTournamentIdAndGroupId s tid gid = some g)
    (hex : MatchRepository.ExistsByGroupId s gid = false)
    (hcap : ¬((g.teams.length : Int) < t.format.maxTeamsPerGroup))
    (hids : (g.teams.map (fun tm => tm.Id)).Nodup) :
    MatchGenerationService.GenerateRoundRobinMatches s tid gid =
      (Except.ok (), { s with matchesTable :=
        s.matchesTable ++ MatchGenerationService.roundRobinMatches tid gid g.teams }) ∧
    (MatchGenerationService.roundRobinMatches tid gid g.teams).length =
      g.teams.length * (g.teams.length - 1) ∧
    (∀ m ∈ MatchGenerationService.roundRobinMatches tid gid g.teams,
      m.round = "regular" ∧ m.status = "pending" ∧ m.score = none ∧
      m.home.id ≠ m.visitor.id) ∧
    (∀ i j, i < g.teams.length → j < g.teams.length → i ≠ j →
      MatchGenerationService.rrMatch tid gid g.teams i j ∈
        MatchGenerationService.roundRobinMatches tid gid g.teams) ∧
    (∀ m ∈ MatchGenerationService.roundRobinMatches tid gid g.teams,
      ∃ i j, i < g.teams.length ∧ j < g.teams.length ∧ i ≠ j ∧
        m = MatchGenerationService.rrMatch tid gid g.teams i j ∧
        m.home.id = (g.teams.getD i { Id := "", Name := "" }).Id ∧
        m.visitor.id = (g.teams.getD j { Id := "", Name := "" }).Id) ∧
    (MatchGenerationService.roundRobinMatches tid gid g.teams).Nodup := by
  have hb := (find_group_props hg).2
  refine ⟨?_, length_rrIndexPairs g.teams.length ▸ ?_, ?_, ?_, ?_, ?_⟩
  · unfold MatchGenerationService.GenerateRoundRobinMatches
    simp only [ht, hg]
    rw [if_neg (by simp [hb]), if_neg (by simp [hex]), if_neg hcap]
  · rw [roundRobinMatches_eq_map, List.length_map]
  · intro m hm
    rw [roundRobinMatches_eq_map, List.mem_map] at hm
    obtain ⟨p, hp, hpm⟩ := hm
    rw [mem_rrIndexPairs] at hp
    refine ⟨by rw [← hpm]; rfl, by rw [← hpm]; rfl, by rw [← hpm]; rfl, ?_⟩
    rw [← hpm]
    intro hcontra
    exact hp.2.2 (teamId_inj hids hp.1 hp.2.1 hcontra)
  · intro i j hi hj hij
    rw [roundRobinMatches_eq_map, List.mem_map]
    exact ⟨(i, j), mem_rrIndexPairs.mpr ⟨hi, hj, hij⟩, rfl⟩
  · intro m hm
    rw [roundRobinMatches_eq_map, List.mem_map] at hm
    obtain ⟨p, hp, hpm⟩ := hm
    rw [mem_rrIndexPairs] at hp
    exact ⟨p.1, p.2, hp.1, hp.2.1, hp.2.2, hpm.symm,
      by rw [← hpm]; rfl, by rw [← hpm]; rfl⟩
  · rw [roundRobinMatches_eq_map]
    apply List.Nodup.map_on ?_ (nodup_rrIndexPairs g.teams.length)
    intro p hp q hq heq
    rw [mem_rrIndexPairs] at hp hq
    have hh : (g.teams.getD p.1 { Id := "", Name := "" }).Id =
        (g.teams.getD q.1 { Id := "", Name := "" }).Id :=
      congrArg (fun m => m.home.id) heq
    have hv : (g.teams.getD p.2 { Id := "", Name := "" }).Id =
        (g.teams.getD q.2 { Id := "", Name := "" }).Id :=
      congrArg (fun m => m.visitor.id) heq
    have h1 := teamId_inj hids hp.1 hq.1 hh
    have h2 := teamId_inj hids hp.2.1 hq.2.1 hv
    exact Prod.ext h1 h2

/-- C2 witness: the round-robin theorem applied to the full 3-team
group of the C2 store; 6 matches are generated. -/
theorem c2_round_robin_generation_witness :
    MatchGenerationService.GenerateRoundRobinMatches Fixtures.c2Store "t2" "g2" =
      (Except.ok (), { Fixtures.c2Store with matchesTable :=
        Fixtures.c2Store.matchesTable ++
          MatchGenerationService.roundRobinMatches "t2" "g2" Fixtures.c2G.teams }) ∧
    (MatchGenerationService.roundRobinMatches "t2" "g2" Fixtures.c2G.teams).length =
      Fixtures.c2G.teams.length * (Fixtures.c2G.teams.length - 1) ∧
    (∀ m ∈ MatchGenerationService.roundRobinMatches "t2" "g2" Fixtures.c2G.teams,
      m.round = "regular" ∧ m.status = "pending" ∧ m.score = none ∧
      m.home.id ≠ m.visitor.id) ∧
    (MatchGenerationService.roundRobinMatches "t2" "g2" Fixtures.c2G.teams).length = 6 := by
  have h := c2_round_robin_generation Fixtures.c2Store "t2" "g2"
    Fixtures.c2T Fixtures.c2G rfl rfl (by decide) (by decide) (by decide)
  exact ⟨h.1, h.2.1, h.2.2.1, by decide⟩

section QuarterfinalLemmas

open PlayoffGenerationService

/-- The success path of GenerateQuarterfinals on at least four groups:
the created matches pair the first- and second-placed teams of the
first four groups in the fixed rotation, regardless of any further
groups. -/
lemma generateQF_success {s : Store} {tid : String} {t : domain.Tournament}
    {g0 g1 g2 g3 : domain.Group} {rest : List domain.Group}
    (ht : TournamentRepository.ReadById s tid = some t)
    (hc : AreAllGroupMatchesCompleted s tid = true)
    (hqf : MatchRepository.FindByTournamentIdAndRound s tid "quarterfinals" = [])
    (hgs : GroupRepository.FindByTournamentId s tid = g0 :: g1 :: g2 :: g3 :: rest) :
    GenerateQuarterfinals s tid =
      (Except.ok (), { s with matchesTable :=
        s.matchesTable ++ qfMatches tid 0 (qfPairList s tid g0 g1 g2 g3) }) := by
  unfold GenerateQuarterfinals
  rw [ht]
  simp only [hc, Bool.not_true, Bool.false_eq_true, if_false, hqf, List.isEmpty_nil, hgs]
  rw [if_neg (by simp only [List.length_cons]; omega)]
  rw [if_pos (by simp only [List.map_cons, List.length_cons]; omega)]
  rfl

end QuarterfinalLemmas

section TopTeamLemmas

open PlayoffGenerationService

/-- With at least two standings, position j of the top-2 team list is
the team of the j-th standing. -/
lemma topTeamOf_eq {s : Store} {tid : String} {g : domain.Group} {j : Nat}
    (h2 : 2 ≤ (CalculateGroupStandings s tid g.id).length) (hj : j < 2) :
    topTeamOf s tid g j = groupRank s tid g j := by
  unfold topTeamOf GetTopTeams groupRank
  cases hl : CalculateGroupStandings s tid g.id with
  | nil => rw [hl] at h2; simp at h2
  | cons a rest =>
    cases rest with
    | nil => rw [hl] at h2; simp at h2
    | cons b rest2 =>
      match j, hj with
      | 0, _ => simp [List.take]
      | 1, _ => simp [List.take]

/-- The first two entries of a list with at least two elements are
members of it. -/
lemma getD_mem_of_two {l : List PlayoffGenerationService.TeamStanding}
    (h2 : 2 ≤ l.length) {j : Nat} (hj : j < 2) :
    l.getD j PlayoffGenerationService.defaultStanding ∈ l := by
  have hjl : j < l.length := by omega
  rw [List.getD_eq_getElem l _ hjl]
  exact List.getElem_mem hjl

end TopTeamLemmas

/-- C4: on exactly four groups with at least two ranked teams each
(all regular matches played, no existing quarterfinals),
GenerateQuarterfinals appends exactly the four matches A1 vs D2, B1 vs
C2, C1 vs B2, D1 vs A2, with ids suffixed qf-1 to qf-4, round
quarterfinals, status pending, no score and no group id. -/
theorem c4_cross_group_seeding (s : Store) (tid : String) (t : domain.Tournament)
    (gA gB gC gD : domain.Group)
    (ht : TournamentRepository.ReadById s tid = some t)
    (hc : PlayoffGenerationService.AreAllGroupMatchesCompleted s tid = true)
    (hqf : MatchRepository.FindByTournamentIdAndRound s tid "quarterfinals" = [])
    (hgs : GroupRepository.FindByTournamentId s tid = [gA, gB, gC, gD])
    (hA : 2 ≤ (PlayoffGenerationService.CalculateGroupStandings s tid gA.id).length)
    (hB : 2 ≤ (PlayoffGenerationService.CalculateGroupStandings s tid gB.id).length)
    (hC : 2 ≤ (PlayoffGenerationService.CalculateGroupStandings s tid gC.id).length)
    (hD : 2 ≤ (PlayoffGenerationService.CalculateGroupStandings s tid gD.id).length) :
    PlayoffGenerationService.GenerateQuarterfinals s tid =
      (Except.ok (), { s with matchesTable :=
        s.matchesTable ++ PlayoffGenerationService.qfMatches tid 0 (PlayoffGenerationService.qfPairList s tid gA gB gC gD) }) ∧
    (PlayoffGenerationService.qfMatches tid 0
        (PlayoffGenerationService.qfPairList s tid gA gB gC gD)).map
      (fun m => (m.home.id, m.visitor.id)) =
      [ ((PlayoffGenerationService.groupRank s tid gA 0).Id,
          (PlayoffGenerationService.groupRank s tid gD 1).Id)
      , ((PlayoffGenerationService.groupRank s tid gB 0).Id,
          (PlayoffGenerationService.groupRank s tid gC 1).Id)
      , ((PlayoffGenerationService.groupRank s tid gC 0).Id,
          (PlayoffGenerationService.groupRank s tid gB 1).Id)
      , ((PlayoffGenerationService.groupRank s tid gD 0).Id,
          (PlayoffGenerationService.groupRank s tid gA 1).Id) ] ∧
    (PlayoffGenerationService.qfMatches tid 0
        (PlayoffGenerationService.qfPairList s tid gA gB gC gD)).map (fun m => m.id) =
      [ tid ++ "-qf-" ++ "1", tid ++ "-qf-" ++ "2"
      , tid ++ "-qf-" ++ "3", tid ++ "-qf-" ++ "4" ] ∧
    (∀ m ∈ PlayoffGenerationService.qfMatches tid 0
        (PlayoffGenerationService.qfPairList s tid gA gB gC gD),
      m.round = "quarterfinals" ∧ m.status = "pending" ∧ m.score = none ∧
      m.groupId = none) := by
  refine ⟨generateQF_success ht hc hqf hgs, ?_, ?_, ?_⟩
  · unfold PlayoffGenerationService.qfPairList
    rw [topTeamOf_eq hA (by omega), topTeamOf_eq hA (by omega),
      topTeamOf_eq hB (by omega), topTeamOf_eq hB (by omega),
      topTeamOf_eq hC (by omega), topTeamOf_eq hC (by omega),
      topTeamOf_eq hD (by omega), topTeamOf_eq hD (by omega)]
    rfl
  · rfl
  · intro m hm
    simp only [PlayoffGenerationService.qfPairList, PlayoffGenerationService.qfMatches,
      List.mem_cons, List.not_mem_nil, or_false] at hm
    rcases hm with rfl | rfl | rfl | rfl <;> exact ⟨rfl, rfl, rfl, rfl⟩

/-- C4 witness: the cross-group seeding theorem applied to the
four-group C4 store; the group winners and runners-up pair up as A1
vs D2, B1 vs C2, C1 vs B2, D1 vs A2 with ids t4-qf-1 to t4-qf-4. -/
theorem c4_cross_group_seeding_witness :
    PlayoffGenerationService.GenerateQuarterfinals Fixtures.c4Store "t4" =
      (Except.ok (), { Fixtures.c4Store with matchesTable :=
        Fixtures.c4Store.matchesTable ++ PlayoffGenerationService.qfMatches "t4" 0 (PlayoffGenerationService.qfPairList Fixtures.c4Store "t4" (Fixtures.mkGroup2 "ga" "t4" "a1" "a2") (Fixtures.mkGroup2 "gb" "t4" "b1" "b2") (Fixtures.mkGroup2 "gc" "t4" "c1" "c2") (Fixtures.mkGroup2 "gd" "t4" "d1" "d2")) }) ∧
    (PlayoffGenerationService.GenerateQuarterfinals Fixtures.c4Store "t4").2.matchesTable.map
      (fun m => (m.id, m.home.id, m.visitor.id)) =
      [ ("ra", "a1", "a2"), ("rb", "b1", "b2"), ("rc", "c1", "c2"), ("rd", "d1", "d2")
      , ("t4-qf-1", "a1", "d2"), ("t4-qf-2", "b1", "c2")
      , ("t4-qf-3", "c1", "b2"), ("t4-qf-4", "d1", "a2") ] := by
  have h := c4_cross_group_seeding Fixtures.c4Store "t4" Fixtures.c4T
    (Fixtures.mkGroup2 "ga" "t4" "a1" "a2") (Fixtures.mkGroup2 "gb" "t4" "b1" "b2")
    (Fixtures.mkGroup2 "gc" "t4" "c1" "c2") (Fixtures.mkGroup2 "gd" "t4" "d1" "d2")
    rfl rfl rfl rfl (by decide) (by decide) (by decide) (by decide)
  exact ⟨h.1, by decide⟩

/-- C10: with more than four groups (tournament exists, all regular
matches played, no existing quarterfinals, first four groups each with
at least two ranked teams), GenerateQuarterfinals succeeds and every
created match draws both of its teams from the standings of the first
four groups in store order; groups beyond the fourth contribute no
team. -/
theorem c10_first_four_groups_only (s : Store) (tid : String) (t : domain.Tournament)
    (gs : List domain.Group)
    (ht : TournamentRepository.ReadById s tid = some t)
    (hc : PlayoffGenerationService.AreAllGroupMatchesCompleted s tid = true)
    (hqf : MatchRepository.FindByTournamentIdAndRound s tid "quarterfinals" = [])
    (hgs : GroupRepository.FindByTournamentId s tid = gs)
    (hlen : 4 < gs.length)
    (h2 : ∀ g ∈ gs.take 4,
      2 ≤ (PlayoffGenerationService.CalculateGroupStandings s tid g.id).length) :
    (PlayoffGenerationService.GenerateQuarterfinals s tid).1 = Except.ok () ∧
    (∀ m ∈ (PlayoffGenerationService.GenerateQuarterfinals s tid).2.matchesTable,
      m ∉ s.matchesTable →
      (∃ g ∈ gs.take 4, ∃ st ∈ PlayoffGenerationService.CalculateGroupStandings s tid g.id,
        m.home.id = st.team.Id) ∧
      (∃ g ∈ gs.take 4, ∃ st ∈ PlayoffGenerationService.CalculateGroupStandings s tid g.id,
        m.visitor.id = st.team.Id)) := by
  match gs, hlen with
  | g0 :: g1 :: g2 :: g3 :: g4 :: rest, _ =>
    have hmain := generateQF_success ht hc hqf (hgs.trans rfl)
    have ht0 : g0 ∈ (g0 :: g1 :: g2 :: g3 :: g4 :: rest).take 4 := by simp
    have ht1 : g1 ∈ (g0 :: g1 :: g2 :: g3 :: g4 :: rest).take 4 := by simp
    have ht2 : g2 ∈ (g0 :: g1 :: g2 :: g3 :: g4 :: rest).take 4 := by simp
    have ht3 : g3 ∈ (g0 :: g1 :: g2 :: g3 :: g4 :: rest).take 4 := by simp
    have h20 := h2 g0 ht0
    have h21 := h2 g1 ht1
    have h22 := h2 g2 ht2
    have h23 := h2 g3 ht3
    constructor
    · rw [hmain]
    · intro m hm hnot
      rw [hmain] at hm
      simp only [List.mem_append] at hm
      rcases hm with hm | hm
      · exact absurd hm hnot
      · have hhome : ∀ (g : domain.Group), g ∈ (g0 :: g1 :: g2 :: g3 :: g4 :: rest).take 4 →
            2 ≤ (PlayoffGenerationService.CalculateGroupStandings s tid g.id).length →
            ∀ j, j < 2 →
            ∃ gg ∈ (g0 :: g1 :: g2 :: g3 :: g4 :: rest).take 4,
              ∃ st ∈ PlayoffGenerationService.CalculateGroupStandings s tid gg.id,
                (PlayoffGenerationService.topTeamOf s tid g j).Id = st.team.Id := by
          intro g hg hgl j hj
          refine ⟨g, hg, ?_⟩
          rw [topTeamOf_eq hgl hj]
          exact ⟨(PlayoffGenerationService.CalculateGroupStandings s tid g.id).getD j
            PlayoffGenerationService.defaultStanding, getD_mem_of_two hgl hj, rfl⟩
        simp only [PlayoffGenerationService.qfPairList, PlayoffGenerationService.qfMatches,
          List.mem_cons, List.not_mem_nil, or_false] at hm
        rcases hm with rfl | rfl | rfl | rfl <;>
          refine ⟨?_, ?_⟩ <;>
          simp only [PlayoffGenerationService.qfMatch] <;>
          first
            | exact hhome g0 ht0 h20 0 (by omega)
            | exact hhome g1 ht1 h21 0 (by omega)
            | exact hhome g2 ht2 h22 0 (by omega)
            | exact hhome g3 ht3 h23 0 (by omega)
            | exact hhome g0 ht0 h20 1 (by omega)
            | exact hhome g1 ht1 h21 1 (by omega)
            | exact hhome g2 ht2 h22 1 (by omega)
            | exact hhome g3 ht3 h23 1 (by omega)

/-- C10 witness: the first-four-groups theorem applied to the
five-group C10 store; no team of the fifth group (e1, e2) reaches the
quarterfinals. -/
theorem c10_first_four_groups_only_witness :
    (PlayoffGenerationService.GenerateQuarterfinals Fixtures.c10Store "t10").1 =
      Except.ok () ∧
    (∀ m ∈ (PlayoffGenerationService.GenerateQuarterfinals Fixtures.c10Store "t10").2.matchesTable,
      m ∉ Fixtures.c10Store.matchesTable →
      (∃ g ∈ (GroupRepository.FindByTournamentId Fixtures.c10Store "t10").take 4,
        ∃ st ∈ PlayoffGenerationService.CalculateGroupStandings Fixtures.c10Store "t10" g.id,
          m.home.id = st.team.Id) ∧
      (∃ g ∈ (GroupRepository.FindByTournamentId Fixtures.c10Store "t10").take 4,
        ∃ st ∈ PlayoffGenerationService.CalculateGroupStandings Fixtures.c10Store "t10" g.id,
          m.visitor.id = st.team.Id)) ∧
    (PlayoffGenerationService.GenerateQuarterfinals Fixtures.c10Store "t10").2.matchesTable.map
      (fun m => (m.id, m.home.id, m.visitor.id)) =
      [ ("ra", "a1", "a2"), ("rb", "b1", "b2"), ("rc", "c1", "c2"), ("rd", "d1", "d2")
      , ("t10-qf-1", "a1", "d2"), ("t10-qf-2", "b1", "c2")
      , ("t10-qf-3", "c1", "b2"), ("t10-qf-4", "d1", "a2") ] := by
  have h := c10_first_four_groups_only Fixtures.c10Store "t10"
    { id := "t10", name := "T10"
      format := { numberOfGroups := 5, maxTeamsPerGroup := 2
                  type := domain.TournamentType.ROUND_ROBIN } }
    (GroupRepository.FindByTournamentId Fixtures.c10Store "t10")
    rfl rfl rfl rfl (by decide) (by decide)
  exact ⟨h.1, h.2, by decide⟩

section AdvanceLemmas

open PlayoffGenerationService

/-- The side of a match selected by the team-detail scan for its
winner carries the winner id. -/
lemma winnerSide_id {m : domain.Match} {w : String} (h : m.GetWinnerId = some w) :
    (if m.home.id = w then m.home else m.visitor).id = w := by
  unfold domain.Match.GetWinnerId at h
  cases hsc : m.score with
  | none => rw [hsc] at h; simp at h
  | some sc =>
    simp only [hsc] at h
    by_cases h1 : sc.home > sc.visitor
    · rw [if_pos h1] at h
      have hh : m.home.id = w := by simpa using h
      rw [if_pos hh]; exact hh
    · rw [if_neg h1] at h
      by_cases h2 : sc.visitor > sc.home
      · rw [if_pos h2] at h
        have hv : m.visitor.id = w := by simpa using h
        by_cases hh : m.home.id = w
        · rw [if_pos hh]; exact hh
        · rw [if_neg hh]; exact hv
      · rw [if_neg h2] at h; simp at h

/-- The team-detail fold keeps the winning side of the last match won
by the looked-up id, and leaves the accumulator untouched when no
match was won by it. -/
lemma findWinnerTeam_aux (w : String) :
    ∀ (cm : List domain.Match) (acc : domain.MatchTeam),
      ((∃ m ∈ cm, m.GetWinnerId = some w) →
        (cm.foldl (fun acc m => if m.GetWinnerId = some w then
          (if m.home.id = w then m.home else m.visitor) else acc) acc).id = w) ∧
      ((¬ ∃ m ∈ cm, m.GetWinnerId = some w) →
        cm.foldl (fun acc m => if m.GetWinnerId = some w then
          (if m.home.id = w then m.home else m.visitor) else acc) acc = acc)
  | [], acc => ⟨fun h => by simp at h, fun _ => rfl⟩
  | m :: tl, acc => by
    constructor
    · intro h
      rw [List.foldl_cons]
      by_cases hw : m.GetWinnerId = some w
      · by_cases htl : ∃ m2 ∈ tl, m2.GetWinnerId = some w
        · exact (findWinnerTeam_aux w tl _).1 htl
        · rw [(findWinnerTeam_aux w tl _).2 htl, if_pos hw]
          exact winnerSide_id hw
      · have htl : ∃ m2 ∈ tl, m2.GetWinnerId = some w := by
          rcases h with ⟨m2, hm2, hw2⟩
          rcases List.mem_cons.mp hm2 with rfl | hmem
          · exact absurd hw2 hw
          · exact ⟨m2, hmem, hw2⟩
        rw [if_neg hw]
        exact (findWinnerTeam_aux w tl acc).1 htl
    · intro h
      rw [List.foldl_cons]
      have hw : ¬ m.GetWinnerId = some w :=
        fun hc => h ⟨m, List.mem_cons_self m tl, hc⟩
      rw [if_neg hw]
      exact (findWinnerTeam_aux w tl acc).2
        (fun hc => by
          rcases hc with ⟨m2, hm2, hw2⟩
          exact h ⟨m2, List.mem_cons_of_mem m hm2, hw2⟩)

/-- When some completed match was won by the looked-up id, the scanned
team carries that id. -/
lemma findWinnerTeam_id {cm : List domain.Match} {w : String}
    (h : ∃ m ∈ cm, m.GetWinnerId = some w) :
    (findWinnerTeam cm w).id = w :=
  (findWinnerTeam_aux w cm { id := "", name := "" }).1 h

/-- The generation loop creates one match per consecutive winner
pair. -/
lemma advancePairs_length (tid nxt : String) (cm : List domain.Match) :
    ∀ (ws : List String) (k : Nat),
      (advancePairs tid nxt cm k ws).length = ws.length / 2
  | [], _ => rfl
  | [_], _ => by simp [advancePairs]
  | _ :: _ :: rest, k => by
    simp only [advancePairs, List.length_cons]
    rw [advancePairs_length tid nxt cm rest (k + 1)]
    omega

/-- The n-th generated match pairs winners 2n and 2n+1 with the
running id suffix. -/
lemma advancePairs_getD (tid nxt : String) (cm : List domain.Match) :
    ∀ (ws : List String) (k n : Nat), n < (advancePairs tid nxt cm k ws).length →
      (advancePairs tid nxt cm k ws).getD n defaultMatch =
        nextRoundMatch tid nxt (k + n)
          (findWinnerTeam cm (ws.getD (2 * n) ""))
          (findWinnerTeam cm (ws.getD (2 * n + 1) ""))
  | [], _, n, h => by simp [advancePairs] at h
  | [_], _, n, h => by simp [advancePairs] at h
  | w1 :: w2 :: rest, k, 0, _ => by
    simp [advancePairs, List.getD_cons_zero]
  | w1 :: w2 :: rest, k, n + 1, h => by
    have hlt : n < (advancePairs tid nxt cm (k + 1) rest).length := by
      simp only [advancePairs, List.length_cons] at h
      omega
    show (nextRoundMatch tid nxt k (findWinnerTeam cm w1) (findWinnerTeam cm w2)
        :: advancePairs tid nxt cm (k + 1) rest).getD (n + 1) defaultMatch = _
    rw [List.getD_cons_succ]
    rw [advancePairs_getD tid nxt cm rest (k + 1) n hlt]
    have e1 : k + 1 + n = k + (n + 1) := by omega
    have e2 : rest.getD (2 * n) "" = (w1 :: w2 :: rest).getD (2 * (n + 1)) "" := by
      have h2 : 2 * (n + 1) = 2 * n + 1 + 1 := by omega
      rw [h2, List.getD_cons_succ, List.getD_cons_succ]
    have e3 : rest.getD (2 * n + 1) "" = (w1 :: w2 :: rest).getD (2 * (n + 1) + 1) "" := by
      have h3 : 2 * (n + 1) + 1 = 2 * n + 1 + 1 + 1 := by omega
      rw [h3, List.getD_cons_succ, List.getD_cons_succ]
    rw [e1, e2, e3]

/-- When every match has a winner, the collected winner list has one
entry per match. -/
lemma length_winners {cm : List domain.Match}
    (h : ∀ m ∈ cm, (m.GetWinnerId).isSome = true) :
    (cm.filterMap (fun m => m.GetWinnerId)).length = cm.length := by
  induction cm with
  | nil => rfl
  | cons m tl ih =>
    cases ho : m.GetWinnerId with
    | none =>
      have := h m (List.mem_cons_self m tl)
      rw [ho] at this
      simp at this
    | some w =>
      rw [List.filterMap_cons, ho, List.length_cons, List.length_cons]
      rw [ih (fun m2 hm2 => h m2 (List.mem_cons_of_mem m hm2))]

end AdvanceLemmas

/-- The advancement body generates the paired winner matches when the
round is complete with winners and the next round does not exist. -/
lemma advanceFrom_generates {s : Store} {tid rnd nxt : String} {n : Nat}
    (hlen : n ≤ (MatchRepository.FindByTournamentIdAndRound s tid rnd).length)
    (hplayed : ∀ m ∈ MatchRepository.FindByTournamentIdAndRound s tid rnd,
      m.status = "played")
    (hwin : ∀ m ∈ MatchRepository.FindByTournamentIdAndRound s tid rnd,
      (m.GetWinnerId).isSome = true)
    (hnext : MatchRepository.FindByTournamentIdAndRound s tid nxt = []) :
    PlayoffGenerationService.advanceFrom s tid rnd nxt n =
      (Except.ok (), { s with matchesTable :=
        s.matchesTable ++ PlayoffGenerationService.advanceOutput s tid rnd nxt }) := by
  unfold PlayoffGenerationService.advanceFrom
  have hany : (MatchRepository.FindByTournamentIdAndRound s tid rnd).any
      (fun m => m.status != "played") = false := by
    rw [List.any_eq_false]
    intro m hmem
    simp [hplayed m hmem]
  have hwl := length_winners hwin
  rw [if_neg (by omega), hany]
  rw [if_neg (by simp), if_neg (by omega), hnext]
  rw [if_neg (by simp)]
  rfl

/-- C6: for a completed round (quarterfinals or semifinals) whose
matches are all played with winners and whose next round does not
exist yet, AdvanceWinners appends the next round built by pairing
consecutive winners in stored order: the n-th created match has
winner 2n as home and winner 2n+1 as visitor, round set to the next
round, status pending, no group id, no score and the running id
suffix. -/
theorem c6_advance_winners_pairing (s : Store) (tid rnd nxt : String) (needed : Nat)
    (t : domain.Tournament)
    (hr : (rnd = "quarterfinals" ∧ nxt = "semifinals" ∧ needed = 4) ∨
      (rnd = "semifinals" ∧ nxt = "finals" ∧ needed = 2))
    (ht : TournamentRepository.ReadById s tid = some t)
    (hlen : needed ≤ (MatchRepository.FindByTournamentIdAndRound s tid rnd).length)
    (hplayed : ∀ m ∈ MatchRepository.FindByTournamentIdAndRound s tid rnd,
      m.status = "played")
    (hwin : ∀ m ∈ MatchRepository.FindByTournamentIdAndRound s tid rnd,
      (m.GetWinnerId).isSome = true)
    (hnext : MatchRepository.FindByTournamentIdAndRound s tid nxt = []) :
    PlayoffGenerationService.AdvanceWinners s tid rnd =
      (Except.ok (), { s with matchesTable :=
        s.matchesTable ++ PlayoffGenerationService.advanceOutput s tid rnd nxt }) ∧
    (PlayoffGenerationService.advanceOutput s tid rnd nxt).length =
      (PlayoffGenerationService.roundWinners s tid rnd).length / 2 ∧
    (∀ n, n < (PlayoffGenerationService.advanceOutput s tid rnd nxt).length →
      ((PlayoffGenerationService.advanceOutput s tid rnd nxt).getD n
          PlayoffGenerationService.defaultMatch).home.id =
        (PlayoffGenerationService.roundWinners s tid rnd).getD (2 * n) "" ∧
      ((PlayoffGenerationService.advanceOutput s tid rnd nxt).getD n
          PlayoffGenerationService.defaultMatch).visitor.id =
        (PlayoffGenerationService.roundWinners s tid rnd).getD (2 * n + 1) "" ∧
      ((PlayoffGenerationService.advanceOutput s tid rnd nxt).getD n
          PlayoffGenerationService.defaultMatch).round = nxt ∧
      ((PlayoffGenerationService.advanceOutput s tid rnd nxt).getD n
          PlayoffGenerationService.defaultMatch).status = "pending" ∧
      ((PlayoffGenerationService.advanceOutput s tid rnd nxt).getD n
          PlayoffGenerationService.defaultMatch).groupId = none ∧
      ((PlayoffGenerationService.advanceOutput s tid rnd nxt).getD n
          PlayoffGenerationService.defaultMatch).score = none ∧
      ((PlayoffGenerationService.advanceOutput s tid rnd nxt).getD n
          PlayoffGenerationService.defaultMatch).id =
        tid ++ "-" ++ nxt ++ "-" ++ toString (n + 1)) := by
  have hwl := length_winners hwin
  refine ⟨?_, ?_, ?_⟩
  · rcases hr with ⟨hr1, hr2, hr3⟩ | ⟨hr1, hr2, hr3⟩ <;> subst hr1 <;> subst hr2 <;>
      subst hr3 <;>
      (unfold PlayoffGenerationService.AdvanceWinners
       simp only [ht]
       rw [if_pos trivial]
       exact advanceFrom_generates hlen hplayed hwin hnext)
  · unfold PlayoffGenerationService.advanceOutput
    exact advancePairs_length tid nxt (MatchRepository.FindByTournamentIdAndRound s tid rnd)
      (PlayoffGenerationService.roundWinners s tid rnd) 0
  · intro n hn
    have hlen2 : (PlayoffGenerationService.advanceOutput s tid rnd nxt).length =
        (PlayoffGenerationService.roundWinners s tid rnd).length / 2 := by
      unfold PlayoffGenerationService.advanceOutput
      exact advancePairs_length tid nxt _ _ 0
    have hub : 2 * n + 1 < (PlayoffGenerationService.roundWinners s tid rnd).length := by
      rw [hlen2] at hn
      omega
    have hgd := advancePairs_getD tid nxt
      (MatchRepository.FindByTournamentIdAndRound s tid rnd)
      (PlayoffGenerationService.roundWinners s tid rnd) 0 n
      (by unfold PlayoffGenerationService.advanceOutput at hn; exact hn)
    have hmemw : ∀ j, j < (PlayoffGenerationService.roundWinners s tid rnd).length →
        ∃ m ∈ MatchRepository.FindByTournamentIdAndRound s tid rnd,
          m.GetWinnerId =
            some ((PlayoffGenerationService.roundWinners s tid rnd).getD j "") := by
      intro j hj
      have hmem : (PlayoffGenerationService.roundWinners s tid rnd).getD j "" ∈
          PlayoffGenerationService.roundWinners s tid rnd := by
        rw [List.getD_eq_getElem _ _ hj]
        exact List.getElem_mem hj
      unfold PlayoffGenerationService.roundWinners at hmem
      rw [List.mem_filterMap] at hmem
      exact hmem
    have hout : (PlayoffGenerationService.advanceOutput s tid rnd nxt).getD n
        PlayoffGenerationService.defaultMatch =
        PlayoffGenerationService.nextRoundMatch tid nxt (0 + n)
          (PlayoffGenerationService.findWinnerTeam
            (MatchRepository.FindByTournamentIdAndRound s tid rnd)
            ((PlayoffGenerationService.roundWinners s tid rnd).getD (2 * n) ""))
          (PlayoffGenerationService.findWinnerTeam
            (MatchRepository.FindByTournamentIdAndRound s tid rnd)
            ((PlayoffGenerationService.roundWinners s tid rnd).getD (2 * n + 1) "")) := by
      unfold PlayoffGenerationService.advanceOutput
      exact hgd
    rw [hout]
    have hzn : 0 + n = n := by omega
    refine ⟨?_, ?_, rfl, rfl, rfl, rfl, by rw [hzn]; rfl⟩
    · exact findWinnerTeam_id (hmemw (2 * n) (by omega))
    · exact findWinnerTeam_id (hmemw (2 * n + 1) hub)

/-- C6 witness: the pairing theorem applied to the C6 store; the
winners of the four quarterfinals are paired consecutively into two
semifinals a vs c and e vs g. -/
theorem c6_advance_winners_pairing_witness :
    PlayoffGenerationService.AdvanceWinners Fixtures.c6Store "t6" "quarterfinals" =
      (Except.ok (), { Fixtures.c6Store with matchesTable :=
        Fixtures.c6Store.matchesTable ++
          PlayoffGenerationService.advanceOutput Fixtures.c6Store "t6" "quarterfinals" "semifinals" }) ∧
    PlayoffGenerationService.roundWinners Fixtures.c6Store "t6" "quarterfinals" =
      ["a", "c", "e", "g"] ∧
    (PlayoffGenerationService.advanceOutput Fixtures.c6Store "t6" "quarterfinals"
        "semifinals").map (fun m => (m.id, m.home.id, m.visitor.id, m.round, m.status)) =
      [ ("t6-semifinals-1", "a", "c", "semifinals", "pending")
      , ("t6-semifinals-2", "e", "g", "semifinals", "pending") ] := by
  have h := c6_advance_winners_pairing Fixtures.c6Store "t6" "quarterfinals" "semifinals" 4
    { id := "t6", name := "T6"
      format := { numberOfGroups := 4, maxTeamsPerGroup := 2
                  type := domain.TournamentType.ROUND_ROBIN } }
    (Or.inl ⟨rfl, rfl, rfl⟩) rfl (by decide) (by decide) (by decide) rfl
  exact ⟨h.1, by decide, by decide⟩


section StandingsMapLemmas

open PlayoffGenerationService

/-- The key order is irreflexive. -/
lemma strLt_irrefl (a : String) : strLt a a = false := by
  simp [strLt]

/-- The key order is asymmetric. -/
lemma strLt_asymm {a b : String} (h : strLt a b = true) : strLt b a = false := by
  unfold strLt at h ⊢
  simp only [decide_eq_true_eq] at h
  simp only [decide_eq_false_iff_not]
  exact lt_asymm h

/-- The key order is total on distinct keys. -/
lemma strLt_total {a b : String} (hne : a ≠ b) :
    strLt a b = true ∨ strLt b a = true := by
  unfold strLt
  simp only [decide_eq_true_eq]
  rcases lt_trichotomy a.data b.data with h | h | h
  · exact Or.inl h
  · exact absurd (by cases a; cases b; cases h; rfl) hne
  · exact Or.inr h

/-- The key order is transitive. -/
lemma strLt_trans {a b c : String} (h1 : strLt a b = true) (h2 : strLt b c = true) :
    strLt a c = true := by
  unfold strLt at h1 h2 ⊢
  simp only [decide_eq_true_eq] at h1 h2 ⊢
  exact lt_trans h1 h2

/-- Unfolding equation of bump on the empty map. -/
lemma bump_nil (k : String) (d : Delta) :
    bump k d [] = [(k, applyDelta d defaultStanding)] := rfl

/-- Unfolding equation of bump when the key hits the head. -/
lemma bump_cons_eq (k : String) (d : Delta) (p : String × TeamStanding)
    (tl : StandingsMap) (h : k = p.1) :
    bump k d (p :: tl) = (p.1, applyDelta d p.2) :: tl := by
  cases p
  simp only [bump]
  rw [if_pos h]

/-- Unfolding equation of bump when the key inserts before the head. -/
lemma bump_cons_insert (k : String) (d : Delta) (p : String × TeamStanding)
    (tl : StandingsMap) (h1 : ¬ k = p.1) (h2 : strLt k p.1 = true) :
    bump k d (p :: tl) = (k, applyDelta d defaultStanding) :: p :: tl := by
  cases p
  simp only [bump]
  rw [if_neg h1, if_pos h2]

/-- Unfolding equation of bump when the key passes the head. -/
lemma bump_cons_skip (k : String) (d : Delta) (p : String × TeamStanding)
    (tl : StandingsMap) (h1 : ¬ k = p.1) (h2 : strLt k p.1 = false) :
    bump k d (p :: tl) = p :: bump k d tl := by
  cases p
  simp only [bump]
  rw [if_neg h1, if_neg (by simp [h2])]

/-- Counter deltas commute on one standing. -/
lemma applyDelta_comm (d1 d2 : Delta) (v : TeamStanding) :
    applyDelta d1 (applyDelta d2 v) = applyDelta d2 (applyDelta d1 v) := by
  cases v
  simp only [applyDelta, TeamStanding.mk.injEq]
  exact ⟨trivial, by omega, by omega, by omega, trivial⟩

/-- Two keyed counter updates commute on the map. -/
lemma bump_comm (k1 k2 : String) (d1 d2 : Delta) (l : StandingsMap) :
    bump k1 d1 (bump k2 d2 l) = bump k2 d2 (bump k1 d1 l) := by
  induction l with
  | nil =>
    by_cases hk : k1 = k2
    · subst hk
      rw [bump_nil, bump_cons_eq k1 d1 _ _ rfl, bump_nil, bump_cons_eq k1 d2 _ _ rfl,
        applyDelta_comm]
    · rcases strLt_total hk with h | h
      · rw [bump_nil k2 d2, bump_nil k1 d1,
          bump_cons_insert k1 d1 (k2, applyDelta d2 defaultStanding) [] (fun hc => hk hc) h,
          bump_cons_skip k2 d2 (k1, applyDelta d1 defaultStanding) [] (fun hc => hk hc.symm) (strLt_asymm h)]
        rfl
      · rw [bump_nil k2 d2, bump_nil k1 d1,
          bump_cons_skip k1 d1 (k2, applyDelta d2 defaultStanding) [] (fun hc => hk hc) (strLt_asymm h),
          bump_cons_insert k2 d2 (k1, applyDelta d1 defaultStanding) [] (fun hc => hk hc.symm) h]
        rfl
  | cons p tl ih =>
    by_cases h1 : k1 = p.1 <;> by_cases h2 : k2 = p.1
    · -- both keys hit the head
      rw [bump_cons_eq k2 d2 p tl h2, bump_cons_eq k1 d1 p tl h1,
        bump_cons_eq k1 d1 (p.1, applyDelta d2 p.2) tl h1,
        bump_cons_eq k2 d2 (p.1, applyDelta d1 p.2) tl h2, applyDelta_comm]
    · -- k1 hits the head, k2 does not
      have hk : ¬ k1 = k2 := fun hc => h2 (hc ▸ h1)
      rcases hs2 : strLt k2 p.1 with _ | _
      · rw [bump_cons_skip k2 d2 p tl h2 hs2, bump_cons_eq k1 d1 p tl h1,
          bump_cons_eq k1 d1 p (bump k2 d2 tl) h1,
          bump_cons_skip k2 d2 (p.1, applyDelta d1 p.2) tl h2 hs2]
      · have hlt : strLt k1 k2 = false := by
          rw [h1]; exact strLt_asymm hs2
        rw [bump_cons_insert k2 d2 p tl h2 hs2, bump_cons_eq k1 d1 p tl h1,
          bump_cons_skip k1 d1 (k2, applyDelta d2 defaultStanding) (p :: tl)
            (fun hc => hk hc) hlt,
          bump_cons_eq k1 d1 p tl h1,
          bump_cons_insert k2 d2 (p.1, applyDelta d1 p.2) tl h2 hs2]
    · -- k2 hits the head, k1 does not
      have hk : ¬ k2 = k1 := fun hc => h1 (hc ▸ h2)
      rcases hs1 : strLt k1 p.1 with _ | _
      · rw [bump_cons_eq k2 d2 p tl h2, bump_cons_skip k1 d1 p tl h1 hs1,
          bump_cons_skip k1 d1 (p.1, applyDelta d2 p.2) tl h1 hs1,
          bump_cons_eq k2 d2 p (bump k1 d1 tl) h2]
      · have hlt : strLt k2 k1 = false := by
          rw [h2]; exact strLt_asymm hs1
        rw [bump_cons_eq k2 d2 p tl h2, bump_cons_insert k1 d1 p tl h1 hs1,
          bump_cons_insert k1 d1 (p.1, applyDelta d2 p.2) tl h1 hs1,
          bump_cons_skip k2 d2 (k1, applyDelta d1 defaultStanding) (p :: tl)
            (fun hc => hk hc) hlt,
          bump_cons_eq k2 d2 p tl h2]
    · -- neither key hits the head
      rcases hs1 : strLt k1 p.1 with _ | _ <;> rcases hs2 : strLt k2 p.1 with _ | _
      · rw [bump_cons_skip k2 d2 p tl h2 hs2, bump_cons_skip k1 d1 p tl h1 hs1,
          bump_cons_skip k1 d1 p (bump k2 d2 tl) h1 hs1,
          bump_cons_skip k2 d2 p (bump k1 d1 tl) h2 hs2, ih]
      · -- k1 passes, k2 inserts
        have hk : ¬ k1 = k2 := fun hc => by rw [hc, hs2] at hs1; cases hs1
        have h12 : strLt k1 k2 = false := by
          rcases strLt_total (fun hc : k1 = k2 => hk hc) with h | h
          · exfalso
            have hx := strLt_trans h hs2
            rw [hx] at hs1
            cases hs1
          · exact strLt_asymm h
        rw [bump_cons_insert k2 d2 p tl h2 hs2, bump_cons_skip k1 d1 p tl h1 hs1,
          bump_cons_skip k1 d1 (k2, applyDelta d2 defaultStanding) (p :: tl)
            (fun hc => hk hc) h12,
          bump_cons_skip k1 d1 p tl h1 hs1,
          bump_cons_insert k2 d2 p (bump k1 d1 tl) h2 hs2]
      · -- k1 inserts, k2 passes
        have hk : ¬ k2 = k1 := fun hc => by rw [hc, hs1] at hs2; cases hs2
        have h21 : strLt k2 k1 = false := by
          rcases strLt_total (fun hc : k2 = k1 => hk hc) with h | h
          · exfalso
            have hx := strLt_trans h hs1
            rw [hx] at hs2
            cases hs2
          · exact strLt_asymm h
        rw [bump_cons_skip k2 d2 p tl h2 hs2, bump_cons_insert k1 d1 p tl h1 hs1,
          bump_cons_insert k1 d1 p (bump k2 d2 tl) h1 hs1,
          bump_cons_skip k2 d2 (k1, applyDelta d1 defaultStanding) (p :: tl)
            (fun hc => hk hc) h21,
          bump_cons_skip k2 d2 p tl h2 hs2]
      · -- both insert
        by_cases hk : k1 = k2
        · subst hk
          rw [bump_cons_insert k1 d2 p tl h2 hs2, bump_cons_insert k1 d1 p tl h1 hs1,
            bump_cons_eq k1 d1 (k1, applyDelta d2 defaultStanding) (p :: tl) rfl,
            bump_cons_eq k1 d2 (k1, applyDelta d1 defaultStanding) (p :: tl) rfl,
            applyDelta_comm]
        · rcases strLt_total hk with h | h
          · rw [bump_cons_insert k2 d2 p tl h2 hs2, bump_cons_insert k1 d1 p tl h1 hs1,
              bump_cons_insert k1 d1 (k2, applyDelta d2 defaultStanding) (p :: tl)
                (fun hc => hk hc) h,
              bump_cons_skip k2 d2 (k1, applyDelta d1 defaultStanding) (p :: tl)
                (fun hc => hk hc.symm) (strLt_asymm h),
              bump_cons_insert k2 d2 p tl h2 hs2]
          · rw [bump_cons_insert k2 d2 p tl h2 hs2, bump_cons_insert k1 d1 p tl h1 hs1,
              bump_cons_skip k1 d1 (k2, applyDelta d2 defaultStanding) (p :: tl)
                (fun hc => hk hc) (strLt_asymm h),
              bump_cons_insert k2 d2 (k1, applyDelta d1 defaultStanding) (p :: tl)
                (fun hc => hk hc.symm) h,
              bump_cons_insert k1 d1 p tl h1 hs1]
        
end StandingsMapLemmas

section PermutationLemmas

open PlayoffGenerationService

/-- Unfolding equation of an update sequence. -/
lemma bumpList_cons (b : String × Delta) (bs : List (String × Delta)) (l : StandingsMap) :
    bumpList (b :: bs) l = bumpList bs (bump b.1 b.2 l) := rfl

/-- A single update commutes with a whole update sequence. -/
lemma bump_bumpList (k : String) (d : Delta) (bs : List (String × Delta)) :
    ∀ l : StandingsMap, bump k d (bumpList bs l) = bumpList bs (bump k d l) := by
  induction bs with
  | nil => intro l; rfl
  | cons b tl ih =>
    intro l
    rw [bumpList_cons, bumpList_cons, ih, bump_comm]

/-- Two update sequences commute on the map. -/
lemma bumpList_comm (bs1 bs2 : List (String × Delta)) (l : StandingsMap) :
    bumpList bs1 (bumpList bs2 l) = bumpList bs2 (bumpList bs1 l) := by
  induction bs1 generalizing l with
  | nil => rfl
  | cons b tl ih =>
    rw [bumpList_cons, bumpList_cons, bump_bumpList, ih]

/-- One iteration of the match loop is the update sequence of the
match. -/
lemma matchStep_eq (st : StandingsMap) (m : domain.Match) :
    matchStep st m = bumpList (matchBumps m) st := by
  unfold matchStep matchBumps
  by_cases hs : m.status = "played"
  · rw [if_pos hs, if_pos hs]
    cases m.score with
    | none => rfl
    | some sc =>
      by_cases h1 : sc.home > sc.visitor
      · simp only [if_pos h1]
        rfl
      · by_cases h2 : sc.visitor > sc.home
        · simp only [if_neg h1, if_pos h2]
          rfl
        · simp only [if_neg h1, if_neg h2]
          rfl
  · rw [if_neg hs, if_neg hs]
    rfl

/-- The match loop body is right commutative, so folding it is
invariant under permutation of the match list. -/
lemma matchStep_rightComm (st : StandingsMap) (m1 m2 : domain.Match) :
    matchStep (matchStep st m1) m2 = matchStep (matchStep st m2) m1 := by
  rw [matchStep_eq st m1, matchStep_eq st m2,
    matchStep_eq (bumpList (matchBumps m1) st) m2,
    matchStep_eq (bumpList (matchBumps m2) st) m1,
    bumpList_comm]

end PermutationLemmas

/-- C9: the standings calculation is order independent in the stored
match list: two stores with the same groups whose match tables are
permutations of each other produce identical standings (and
recomputation on the same store trivially yields the same result). -/
theorem c9_standings_permutation_invariant (s1 s2 : Store) (tid gid : String)
    (hg : s1.groups = s2.groups)
    (hp : s1.matchesTable.Perm s2.matchesTable) :
    PlayoffGenerationService.CalculateGroupStandings s1 tid gid =
      PlayoffGenerationService.CalculateGroupStandings s2 tid gid := by
  unfold PlayoffGenerationService.CalculateGroupStandings
  have hgr : GroupRepository.FindByTournamentIdAndGroupId s1 tid gid =
      GroupRepository.FindByTournamentIdAndGroupId s2 tid gid := by
    unfold GroupRepository.FindByTournamentIdAndGroupId
    rw [hg]
  rw [hgr]
  cases GroupRepository.FindByTournamentIdAndGroupId s2 tid gid with
  | none => rfl
  | some g =>
    have hperm : (MatchRepository.FindByGroupId s1 gid).Perm
        (MatchRepository.FindByGroupId s2 gid) := by
      unfold MatchRepository.FindByGroupId
      exact hp.filter _
    have hfold : List.foldl PlayoffGenerationService.matchStep
        (PlayoffGenerationService.initStandings g.teams)
        (MatchRepository.FindByGroupId s1 gid) =
        List.foldl PlayoffGenerationService.matchStep
        (PlayoffGenerationService.initStandings g.teams)
        (MatchRepository.FindByGroupId s2 gid) := by
      have hrc : RightCommutative PlayoffGenerationService.matchStep :=
        ⟨fun st m1 m2 => matchStep_rightComm st m1 m2⟩
      exact @List.Perm.foldl_eq _ _ PlayoffGenerationService.matchStep _ _ hrc hperm
        (PlayoffGenerationService.initStandings g.teams)
    show PlayoffGenerationService.sortStandings
        ((List.foldl PlayoffGenerationService.matchStep
          (PlayoffGenerationService.initStandings g.teams)
          (MatchRepository.FindByGroupId s1 gid)).map
          (fun p => { p.2 with goalDifference := p.2.goalsFor - p.2.goalsAgainst })) =
      PlayoffGenerationService.sortStandings
        ((List.foldl PlayoffGenerationService.matchStep
          (PlayoffGenerationService.initStandings g.teams)
          (MatchRepository.FindByGroupId s2 gid)).map
          (fun p => { p.2 with goalDifference := p.2.goalsFor - p.2.goalsAgainst }))
    rw [hfold]

/-- C9 witness: the permutation theorem applied to two concrete stores
holding the same two played matches in opposite order. -/
theorem c9_standings_permutation_invariant_witness :
    Fixtures.c9StoreA.matchesTable.Perm Fixtures.c9StoreB.matchesTable ∧
    PlayoffGenerationService.CalculateGroupStandings Fixtures.c9StoreA "t9" "g9" =
      PlayoffGenerationService.CalculateGroupStandings Fixtures.c9StoreB "t9" "g9" ∧
    (PlayoffGenerationService.CalculateGroupStandings Fixtures.c9StoreA "t9" "g9").map
      (fun st => (st.team.Id, st.wins, st.goalsFor, st.goalsAgainst)) =
      [("a", 1, 5, 4), ("b", 0, 4, 5)] := by
  refine ⟨by decide, c9_standings_permutation_invariant Fixtures.c9StoreA Fixtures.c9StoreB
    "t9" "g9" rfl (by decide), by decide⟩

section SortLemmas

open PlayoffGenerationService

/-- Arithmetic reading of the std::sort comparator. -/
lemma standingLess_iff (a b : TeamStanding) : standingLess a b = true ↔
    (b.wins < a.wins ∨ (a.wins = b.wins ∧ b.goalDifference < a.goalDifference) ∨
     (a.wins = b.wins ∧ a.goalDifference = b.goalDifference ∧ b.goalsFor < a.goalsFor)) := by
  unfold standingLess
  split_ifs with h1 h2 <;> simp only [decide_eq_true_eq] <;> omega

/-- Arithmetic reading of the induced non-strict order. -/
lemma standingLe_iff (a b : TeamStanding) : standingLe a b = true ↔
    ¬(a.wins < b.wins ∨ (b.wins = a.wins ∧ a.goalDifference < b.goalDifference) ∨
      (b.wins = a.wins ∧ b.goalDifference = a.goalDifference ∧ a.goalsFor < b.goalsFor)) := by
  unfold standingLe
  rw [Bool.not_eq_true', ← Bool.not_eq_true, standingLess_iff]

/-- The induced order is total. -/
lemma standingLe_total (a b : TeamStanding) :
    standingLe a b = true ∨ standingLe b a = true := by
  rw [standingLe_iff, standingLe_iff]
  omega

/-- The induced order is transitive. -/
lemma standingLe_trans {a b c : TeamStanding}
    (h1 : standingLe a b = true) (h2 : standingLe b c = true) :
    standingLe a c = true := by
  rw [standingLe_iff] at h1 h2 ⊢
  omega

/-- Inserting permutes with consing. -/
lemma insertStanding_perm (a : TeamStanding) (l : List TeamStanding) :
    (insertStanding a l).Perm (a :: l) := by
  induction l with
  | nil => exact List.Perm.refl _
  | cons b tl ih =>
    unfold insertStanding
    by_cases h : standingLe a b = true
    · rw [if_pos h]
    · rw [if_neg h]
      exact (List.Perm.cons b ih).trans (List.Perm.swap a b tl)

/-- Membership in an insertion. -/
lemma mem_insertStanding {c a : TeamStanding} {l : List TeamStanding} :
    c ∈ insertStanding a l ↔ c = a ∨ c ∈ l := by
  rw [(insertStanding_perm a l).mem_iff, List.mem_cons]

/-- The sort permutes its input. -/
lemma sortStandings_perm (l : List TeamStanding) : (sortStandings l).Perm l := by
  induction l with
  | nil => exact List.Perm.refl _
  | cons a tl ih =>
    unfold sortStandings
    exact (insertStanding_perm a (sortStandings tl)).trans (List.Perm.cons a ih)

/-- Inserting into a sorted list keeps it sorted. -/
lemma pairwise_le_insertStanding (a : TeamStanding) (l : List TeamStanding)
    (hl : l.Pairwise (fun x y => standingLe x y = true)) :
    (insertStanding a l).Pairwise (fun x y => standingLe x y = true) := by
  induction l with
  | nil => simp [insertStanding]
  | cons b tl ih =>
    unfold insertStanding
    by_cases h : standingLe a b = true
    · rw [if_pos h]
      refine List.Pairwise.cons ?_ hl
      intro z hz
      rcases List.mem_cons.mp hz with rfl | hz2
      · exact h
      · exact standingLe_trans h (List.rel_of_pairwise_cons hl hz2)
    · rw [if_neg h]
      have hba : standingLe b a = true := (standingLe_total a b).resolve_left h
      refine List.Pairwise.cons ?_ (ih (List.Pairwise.of_cons hl))
      intro z hz
      rcases mem_insertStanding.mp hz with rfl | hz2
      · exact hba
      · exact List.rel_of_pairwise_cons hl hz2

/-- The sort output is ordered by the comparator. -/
lemma sortStandings_sorted (l : List TeamStanding) :
    (sortStandings l).Pairwise (fun x y => standingLe x y = true) := by
  induction l with
  | nil => exact List.Pairwise.nil
  | cons a tl ih =>
    exact pairwise_le_insertStanding a (sortStandings tl) ih

/-- Stability transfer: any relation that holds backwards on strictly
misordered pairs and forwards on the input pairs survives the sort. -/
lemma pairwise_insertStanding_R {R : TeamStanding → TeamStanding → Prop}
    (hR : ∀ x y, standingLe x y = false → R y x)
    (a : TeamStanding) (l : List TeamStanding)
    (hl : l.Pairwise R) (ha : ∀ y ∈ l, R a y) :
    (insertStanding a l).Pairwise R := by
  induction l with
  | nil => simp [insertStanding]
  | cons b tl ih =>
    unfold insertStanding
    by_cases h : standingLe a b = true
    · rw [if_pos h]
      exact List.Pairwise.cons ha hl
    · rw [if_neg h]
      refine List.Pairwise.cons ?_
        (ih (List.Pairwise.of_cons hl) (fun y hy => ha y (List.mem_cons_of_mem b hy)))
      intro z hz
      rcases mem_insertStanding.mp hz with heq | hz2
      · rw [heq]
        exact hR a b (by simpa using h)
      · exact List.rel_of_pairwise_cons hl hz2

/-- The sort keeps any input Pairwise relation that holds backwards on
strictly misordered pairs. -/
lemma pairwise_sortStandings_R {R : TeamStanding → TeamStanding → Prop}
    (hR : ∀ x y, standingLe x y = false → R y x) :
    ∀ l : List TeamStanding, l.Pairwise R → (sortStandings l).Pairwise R := by
  intro l
  induction l with
  | nil => intro _; exact List.Pairwise.nil
  | cons a tl ih =>
    intro hl
    unfold sortStandings
    refine pairwise_insertStanding_R hR a (sortStandings tl) (ih (List.Pairwise.of_cons hl)) ?_
    intro y hy
    exact List.rel_of_pairwise_cons hl ((sortStandings_perm tl).mem_iff.mp hy)

end SortLemmas

section MapAssignLemmas

open PlayoffGenerationService

/-- Unfolding equation of mapAssign on the empty map. -/
lemma mapAssign_nil (k : String) (v : TeamStanding) :
    mapAssign k v [] = [(k, v)] := rfl

/-- Unfolding equation of mapAssign when the key hits the head. -/
lemma mapAssign_cons_eq (k : String) (v : TeamStanding) (p : String × TeamStanding)
    (tl : StandingsMap) (h : k = p.1) :
    mapAssign k v (p :: tl) = (p.1, v) :: tl := by
  cases p
  simp only [mapAssign]
  rw [if_pos h]

/-- Unfolding equation of mapAssign when the key inserts before the head. -/
lemma mapAssign_cons_insert (k : String) (v : TeamStanding) (p : String × TeamStanding)
    (tl : StandingsMap) (h1 : ¬ k = p.1) (h2 : strLt k p.1 = true) :
    mapAssign k v (p :: tl) = (k, v) :: p :: tl := by
  cases p
  simp only [mapAssign]
  rw [if_neg h1, if_pos h2]

/-- Unfolding equation of mapAssign when the key passes the head. -/
lemma mapAssign_cons_skip (k : String) (v : TeamStanding) (p : String × TeamStanding)
    (tl : StandingsMap) (h1 : ¬ k = p.1) (h2 : strLt k p.1 = false) :
    mapAssign k v (p :: tl) = p :: mapAssign k v tl := by
  cases p
  simp only [mapAssign]
  rw [if_neg h1, if_neg (by simp [h2])]

/-- The keys after an assignment are the assigned key and the old keys. -/
lemma mem_keys_mapAssign (k : String) (v : TeamStanding) :
    ∀ (l : StandingsMap) (x : String),
      x ∈ (mapAssign k v l).map Prod.fst ↔ x = k ∨ x ∈ l.map Prod.fst := by
  intro l
  induction l with
  | nil => intro x; simp [mapAssign]
  | cons p tl ih =>
    intro x
    by_cases h1 : k = p.1
    · subst h1
      rw [mapAssign_cons_eq p.1 v p tl rfl]
      simp only [List.map_cons, List.mem_cons]
      try tauto
    · by_cases h2 : strLt k p.1 = true
      · rw [mapAssign_cons_insert k v p tl h1 h2]
        simp only [List.map_cons, List.mem_cons]
        try tauto
      · rw [mapAssign_cons_skip k v p tl h1 (Bool.eq_false_iff.mpr h2)]
        simp only [List.map_cons, List.mem_cons, ih x]
        tauto

/-- Assignment keeps the map keys strictly sorted. -/
lemma keysSorted_mapAssign (k : String) (v : TeamStanding) :
    ∀ l : StandingsMap, KeysSorted l → KeysSorted (mapAssign k v l) := by
  intro l
  induction l with
  | nil =>
    intro _
    unfold KeysSorted
    simp [mapAssign]
  | cons p tl ih =>
    intro hl
    unfold KeysSorted at hl ⊢
    rw [List.map_cons] at hl
    by_cases h1 : k = p.1
    · rw [mapAssign_cons_eq k v p tl h1, List.map_cons]
      exact hl
    · by_cases h2 : strLt k p.1 = true
      · rw [mapAssign_cons_insert k v p tl h1 h2]
        simp only [List.map_cons]
        refine List.Pairwise.cons ?_ hl
        intro y hy
        rcases List.mem_cons.mp hy with rfl | hy2
        · exact h2
        · exact strLt_trans h2 (List.rel_of_pairwise_cons hl hy2)
      · have h2f : strLt k p.1 = false := Bool.eq_false_iff.mpr h2
        rw [mapAssign_cons_skip k v p tl h1 h2f]
        simp only [List.map_cons]
        refine List.Pairwise.cons ?_ (ih (List.Pairwise.of_cons hl))
        intro y hy
        rcases (mem_keys_mapAssign k v tl y).mp hy with rfl | hy2
        · exact (strLt_total h1).resolve_left (fun hc => by simp [hc] at h2f)
        · exact List.rel_of_pairwise_cons hl hy2

/-- Assignment of a standing carrying the team of its key keeps the
team-of-key invariant. -/
lemma teamKey_mapAssign (k : String) (v : TeamStanding) (hv : v.team.Id = k) :
    ∀ l : StandingsMap, TeamKey l → TeamKey (mapAssign k v l) := by
  intro l
  induction l with
  | nil =>
    intro _ q hq
    rw [mapAssign_nil] at hq
    rcases List.mem_cons.mp hq with rfl | hq2
    · exact hv
    · exact absurd hq2 (List.not_mem_nil q)
  | cons p tl ih =>
    intro hl q hq
    by_cases h1 : k = p.1
    · rw [mapAssign_cons_eq k v p tl h1] at hq
      rcases List.mem_cons.mp hq with rfl | hq2
      · rw [hv]; exact h1
      · exact hl q (List.mem_cons_of_mem p hq2)
    · by_cases h2 : strLt k p.1 = true
      · rw [mapAssign_cons_insert k v p tl h1 h2] at hq
        rcases List.mem_cons.mp hq with rfl | hq2
        · exact hv
        · exact hl q hq2
      · rw [mapAssign_cons_skip k v p tl h1 (Bool.eq_false_iff.mpr h2)] at hq
        rcases List.mem_cons.mp hq with rfl | hq2
        · exact hl q (List.mem_cons_self _ _)
        · exact ih (fun r hr => hl r (List.mem_cons_of_mem p hr)) q hq2

/-- An entry under a different key survives an assignment. -/
lemma mapAssign_preserve (k : String) (v : TeamStanding) :
    ∀ (l : StandingsMap) (q : String × TeamStanding),
      q ∈ l → q.1 ≠ k → q ∈ mapAssign k v l := by
  intro l
  induction l with
  | nil => intro q hq _; exact absurd hq (List.not_mem_nil q)
  | cons p tl ih =>
    intro q hq hne
    by_cases h1 : k = p.1
    · rw [mapAssign_cons_eq k v p tl h1]
      rcases List.mem_cons.mp hq with rfl | hq2
      · exact absurd h1.symm hne
      · exact List.mem_cons_of_mem _ hq2
    · by_cases h2 : strLt k p.1 = true
      · rw [mapAssign_cons_insert k v p tl h1 h2]
        exact List.mem_cons_of_mem _ hq
      · rw [mapAssign_cons_skip k v p tl h1 (Bool.eq_false_iff.mpr h2)]
        rcases List.mem_cons.mp hq with rfl | hq2
        · exact List.mem_cons_self q _
        · exact List.mem_cons_of_mem p (ih q hq2 hne)

/-- The assigned entry is in the map after the assignment. -/
lemma mapAssign_self_mem (k : String) (v : TeamStanding) :
    ∀ l : StandingsMap, (k, v) ∈ mapAssign k v l := by
  intro l
  induction l with
  | nil => rw [mapAssign_nil]; exact List.mem_cons_self _ _
  | cons p tl ih =>
    by_cases h1 : k = p.1
    · rw [mapAssign_cons_eq k v p tl h1]
      subst h1
      exact List.mem_cons_self _ _
    · by_cases h2 : strLt k p.1 = true
      · rw [mapAssign_cons_insert k v p tl h1 h2]
        exact List.mem_cons_self _ _
      · rw [mapAssign_cons_skip k v p tl h1 (Bool.eq_false_iff.mpr h2)]
        exact List.mem_cons_of_mem p ih

end MapAssignLemmas

section InitSigLemmas

open PlayoffGenerationService

/-- The empty map has sorted keys. -/
lemma keysSorted_nil : KeysSorted [] := by
  unfold KeysSorted
  simp

/-- The empty map satisfies the team-of-key invariant. -/
lemma teamKey_nil : TeamKey [] :=
  fun p hp => absurd hp (List.not_mem_nil p)

/-- Folding the roster initialization loop over any well-formed
accumulator keeps the map invariants and covers every roster id. -/
lemma initStandings_aux (teams : List domain.Team) :
    ∀ acc : StandingsMap, KeysSorted acc → TeamKey acc →
      KeysSorted (teams.foldl
        (fun st t => mapAssign t.Id { defaultStanding with team := t } st) acc) ∧
      TeamKey (teams.foldl
        (fun st t => mapAssign t.Id { defaultStanding with team := t } st) acc) ∧
      (∀ x ∈ acc.map Prod.fst, x ∈ (teams.foldl
        (fun st t => mapAssign t.Id { defaultStanding with team := t } st) acc).map Prod.fst) ∧
      (∀ t ∈ teams, t.Id ∈ (teams.foldl
        (fun st t => mapAssign t.Id { defaultStanding with team := t } st) acc).map Prod.fst) := by
  induction teams with
  | nil =>
    intro acc hs hk
    exact ⟨hs, hk, fun x hx => hx, fun t ht => absurd ht (List.not_mem_nil t)⟩
  | cons u ts ih =>
    intro acc hs hk
    simp only [List.foldl_cons]
    obtain ⟨a, b, c, d⟩ := ih (mapAssign u.Id { defaultStanding with team := u } acc)
      (keysSorted_mapAssign u.Id _ acc hs)
      (teamKey_mapAssign u.Id _ rfl acc hk)
    refine ⟨a, b, ?_, ?_⟩
    · intro x hx
      exact c x ((mem_keys_mapAssign u.Id _ acc x).mpr (Or.inr hx))
    · intro t ht
      rcases List.mem_cons.mp ht with rfl | ht2
      · exact c t.Id ((mem_keys_mapAssign t.Id _ acc t.Id).mpr (Or.inl rfl))
      · exact d t ht2

/-- The initialized standings map: sorted keys, team-of-key entries,
one key per roster team. -/
lemma initStandings_invariant (teams : List domain.Team) :
    KeysSorted (initStandings teams) ∧ TeamKey (initStandings teams) ∧
      ∀ t ∈ teams, t.Id ∈ (initStandings teams).map Prod.fst := by
  obtain ⟨a, b, _, d⟩ := initStandings_aux teams [] keysSorted_nil teamKey_nil
  exact ⟨a, b, d⟩

/-- An entry under a key outside the remaining roster ids survives the
rest of the initialization loop. -/
lemma foldl_assign_preserve (teams : List domain.Team) :
    ∀ (acc : StandingsMap) (q : String × TeamStanding),
      q ∈ acc → q.1 ∉ teams.map (fun t => t.Id) →
      q ∈ teams.foldl
        (fun st t => mapAssign t.Id { defaultStanding with team := t } st) acc := by
  induction teams with
  | nil => intro acc q hq _; exact hq
  | cons u ts ih =>
    intro acc q hq hni
    simp only [List.map_cons, List.mem_cons] at hni
    push_neg at hni
    simp only [List.foldl_cons]
    exact ih (mapAssign u.Id { defaultStanding with team := u } acc) q
      (mapAssign_preserve u.Id _ acc q hq hni.1) hni.2

/-- With duplicate-free roster ids, the initialization loop ends with
the zero standing of every roster team as an entry. -/
lemma initStandings_mem_aux (teams : List domain.Team) :
    ∀ (acc : StandingsMap) (t : domain.Team),
      t ∈ teams → (teams.map (fun u => u.Id)).Nodup →
      (t.Id, { defaultStanding with team := t }) ∈ teams.foldl
        (fun st t => mapAssign t.Id { defaultStanding with team := t } st) acc := by
  induction teams with
  | nil => intro acc t ht _; exact absurd ht (List.not_mem_nil t)
  | cons u ts ih =>
    intro acc t ht hnd
    simp only [List.foldl_cons]
    rcases List.mem_cons.mp ht with rfl | ht2
    · refine foldl_assign_preserve ts _ _ (mapAssign_self_mem t.Id _ acc) ?_
      rw [List.map_cons] at hnd
      exact (List.nodup_cons.mp hnd).1
    · exact ih (mapAssign u.Id { defaultStanding with team := u } acc) t ht2
        (by rw [List.map_cons] at hnd; exact (List.nodup_cons.mp hnd).2)

/-- Entry membership in the initialized standings map. -/
lemma initStandings_mem (teams : List domain.Team)
    (hnd : (teams.map (fun u => u.Id)).Nodup) :
    ∀ t ∈ teams, (t.Id, { defaultStanding with team := t }) ∈ initStandings teams :=
  fun t ht => initStandings_mem_aux teams [] t ht hnd

/-- The keys of the signature are the keys of the map. -/
lemma map_fst_standingsSig (l : StandingsMap) :
    (standingsSig l).map Prod.fst = l.map Prod.fst := by
  unfold standingsSig
  rw [List.map_map]
  rfl

/-- A counter update of a present key leaves the signature unchanged. -/
lemma standingsSig_bump (k : String) (d : Delta) :
    ∀ l : StandingsMap, KeysSorted l → k ∈ l.map Prod.fst →
      standingsSig (bump k d l) = standingsSig l := by
  intro l
  induction l with
  | nil => intro _ hmem; simp at hmem
  | cons p tl ih =>
    intro hs hmem
    by_cases h1 : k = p.1
    · rw [bump_cons_eq k d p tl h1]
      rfl
    · have hmem2 : k ∈ tl.map Prod.fst := by
        rw [List.map_cons] at hmem
        rcases List.mem_cons.mp hmem with h | h
        · exact absurd h h1
        · exact h
      have hpk : strLt p.1 k = true := by
        unfold KeysSorted at hs
        rw [List.map_cons] at hs
        exact List.rel_of_pairwise_cons hs hmem2
      rw [bump_cons_skip k d p tl h1 (strLt_asymm hpk)]
      have hstl : KeysSorted tl := by
        unfold KeysSorted at hs ⊢
        rw [List.map_cons] at hs
        exact List.Pairwise.of_cons hs
      unfold standingsSig at ih ⊢
      rw [List.map_cons, List.map_cons, ih hstl hmem2]

end InitSigLemmas

section MatchFoldLemmas

open PlayoffGenerationService

/-- An uncounted match contributes no counter updates. -/
lemma matchBumps_nil_of_uncounted (m : domain.Match) (h : isCounted m = false) :
    matchBumps m = [] := by
  unfold matchBumps
  by_cases hp : m.status = "played"
  · rw [if_pos hp]
    cases hsc : m.score with
    | none => rfl
    | some sc =>
      exfalso
      unfold isCounted at h
      rw [hsc] at h
      simp [hp] at h
  · rw [if_neg hp]

/-- Every counter update of a match keys one of its two sides. -/
lemma matchBumps_keys (m : domain.Match) :
    ∀ b ∈ matchBumps m, b.1 = m.home.id ∨ b.1 = m.visitor.id := by
  intro b hb
  unfold matchBumps at hb
  by_cases hp : m.status = "played"
  · rw [if_pos hp] at hb
    cases hsc : m.score with
    | none => rw [hsc] at hb; exact absurd hb (List.not_mem_nil b)
    | some sc =>
      rw [hsc] at hb
      rcases List.mem_append.mp hb with hb2 | hb2
      · simp only [List.mem_cons, List.not_mem_nil, or_false] at hb2
        rcases hb2 with rfl | rfl | rfl | rfl
        · exact Or.inl rfl
        · exact Or.inl rfl
        · exact Or.inr rfl
        · exact Or.inr rfl
      · split_ifs at hb2
        · simp only [List.mem_cons, List.not_mem_nil, or_false] at hb2
          rw [hb2]
          exact Or.inl rfl
        · simp only [List.mem_cons, List.not_mem_nil, or_false] at hb2
          rw [hb2]
          exact Or.inr rfl
        · exact absurd hb2 (List.not_mem_nil b)
  · rw [if_neg hp] at hb
    exact absurd hb (List.not_mem_nil b)

/-- An uncounted match leaves the standings untouched. -/
lemma matchStep_skip (l : StandingsMap) (m : domain.Match) (h : isCounted m = false) :
    matchStep l m = l := by
  rw [matchStep_eq, matchBumps_nil_of_uncounted m h]
  rfl

/-- An update sequence over present keys leaves the signature unchanged. -/
lemma standingsSig_bumpList (bs : List (String × Delta)) :
    ∀ l : StandingsMap, KeysSorted l → (∀ b ∈ bs, b.1 ∈ l.map Prod.fst) →
      standingsSig (bumpList bs l) = standingsSig l := by
  induction bs with
  | nil => intro l _ _; rfl
  | cons b tl ih =>
    intro l hs hb
    rw [bumpList_cons]
    have e1 : standingsSig (bump b.1 b.2 l) = standingsSig l :=
      standingsSig_bump b.1 b.2 l hs (hb b (List.mem_cons_self b tl))
    have k1 : (bump b.1 b.2 l).map Prod.fst = l.map Prod.fst := by
      rw [← map_fst_standingsSig, e1, map_fst_standingsSig]
    have hs1 : KeysSorted (bump b.1 b.2 l) := by
      unfold KeysSorted
      rw [k1]
      exact hs
    rw [ih (bump b.1 b.2 l) hs1
      (fun c hc => by rw [k1]; exact hb c (List.mem_cons_of_mem b hc)), e1]

/-- One match loop iteration over a map keyed by both sides leaves the
signature unchanged. -/
lemma standingsSig_matchStep (m : domain.Match) (l : StandingsMap)
    (hs : KeysSorted l)
    (hm : isCounted m = true →
      m.home.id ∈ l.map Prod.fst ∧ m.visitor.id ∈ l.map Prod.fst) :
    standingsSig (matchStep l m) = standingsSig l := by
  rw [matchStep_eq]
  cases hc : isCounted m with
  | false => rw [matchBumps_nil_of_uncounted m hc]; rfl
  | true =>
    obtain ⟨hh, hv⟩ := hm hc
    refine standingsSig_bumpList (matchBumps m) l hs ?_
    intro b hb
    rcases matchBumps_keys m b hb with h | h <;> rw [h]
    · exact hh
    · exact hv

/-- The whole match loop leaves the signature unchanged when every
counted match plays between mapped keys. -/
lemma standingsSig_foldl (ms : List domain.Match) :
    ∀ l : StandingsMap, KeysSorted l →
      (∀ m ∈ ms, isCounted m = true →
        m.home.id ∈ l.map Prod.fst ∧ m.visitor.id ∈ l.map Prod.fst) →
      standingsSig (ms.foldl matchStep l) = standingsSig l := by
  induction ms with
  | nil => intro l _ _; rfl
  | cons m tl ih =>
    intro l hs hm
    rw [List.foldl_cons]
    have e1 : standingsSig (matchStep l m) = standingsSig l :=
      standingsSig_matchStep m l hs (hm m (List.mem_cons_self m tl))
    have k1 : (matchStep l m).map Prod.fst = l.map Prod.fst := by
      rw [← map_fst_standingsSig, e1, map_fst_standingsSig]
    have hs1 : KeysSorted (matchStep l m) := by
      unfold KeysSorted
      rw [k1]
      exact hs
    rw [ih (matchStep l m) hs1
      (fun m2 h2 hc => by rw [k1]; exact hm m2 (List.mem_cons_of_mem m h2) hc), e1]

/-- An entry under a key different from the updated one survives a
counter update. -/
lemma bump_preserve (k : String) (d : Delta) :
    ∀ (l : StandingsMap) (q : String × TeamStanding),
      q ∈ l → q.1 ≠ k → q ∈ bump k d l := by
  intro l
  induction l with
  | nil => intro q hq _; exact absurd hq (List.not_mem_nil q)
  | cons p tl ih =>
    intro q hq hne
    by_cases h1 : k = p.1
    · rw [bump_cons_eq k d p tl h1]
      rcases List.mem_cons.mp hq with rfl | hq2
      · exact absurd h1.symm hne
      · exact List.mem_cons_of_mem _ hq2
    · by_cases h2 : strLt k p.1 = true
      · rw [bump_cons_insert k d p tl h1 h2]
        exact List.mem_cons_of_mem _ hq
      · rw [bump_cons_skip k d p tl h1 (Bool.eq_false_iff.mpr h2)]
        rcases List.mem_cons.mp hq with rfl | hq2
        · exact List.mem_cons_self q _
        · exact List.mem_cons_of_mem p (ih q hq2 hne)

/-- An entry keyed by none of the updates survives an update sequence. -/
lemma bumpList_preserve (bs : List (String × Delta)) :
    ∀ (l : StandingsMap) (q : String × TeamStanding),
      q ∈ l → (∀ b ∈ bs, b.1 ≠ q.1) → q ∈ bumpList bs l := by
  induction bs with
  | nil => intro l q hq _; exact hq
  | cons b tl ih =>
    intro l q hq hb
    rw [bumpList_cons]
    exact ih (bump b.1 b.2 l) q
      (bump_preserve b.1 b.2 l q hq (fun hc => hb b (List.mem_cons_self b tl) hc.symm))
      (fun c hc => hb c (List.mem_cons_of_mem b hc))

/-- An entry whose team plays no counted match survives the whole
match loop. -/
lemma foldl_matchStep_preserve (ms : List domain.Match) :
    ∀ (l : StandingsMap) (q : String × TeamStanding),
      q ∈ l →
      (∀ m ∈ ms, isCounted m = true → m.home.id ≠ q.1 ∧ m.visitor.id ≠ q.1) →
      q ∈ ms.foldl matchStep l := by
  induction ms with
  | nil => intro l q hq _; exact hq
  | cons m tl ih =>
    intro l q hq hm
    rw [List.foldl_cons]
    have hq1 : q ∈ matchStep l m := by
      rw [matchStep_eq]
      refine bumpList_preserve (matchBumps m) l q hq ?_
      intro b hb
      cases hc : isCounted m with
      | false =>
        rw [matchBumps_nil_of_uncounted m hc] at hb
        exact absurd hb (List.not_mem_nil b)
      | true =>
        obtain ⟨h1, h2⟩ := hm m (List.mem_cons_self m tl) hc
        rcases matchBumps_keys m b hb with h | h <;> rw [h]
        · exact h1
        · exact h2
    exact ih (matchStep l m) q hq1 (fun m2 h2 => hm m2 (List.mem_cons_of_mem m h2))

/-- The match loop only sees the counted matches. -/
lemma foldl_matchStep_filter (ms : List domain.Match) :
    ∀ l : StandingsMap, ms.foldl matchStep l = (ms.filter isCounted).foldl matchStep l := by
  induction ms with
  | nil => intro l; rfl
  | cons m tl ih =>
    intro l
    cases hc : isCounted m with
    | false => simp [List.filter_cons, hc, matchStep_skip l m hc, ih]
    | true => simp [List.filter_cons, hc, ih]

end MatchFoldLemmas

section C5Lemmas

open PlayoffGenerationService

/-- The team-of-key invariant transfers along equal signatures. -/
lemma teamKey_of_sig {l1 l2 : StandingsMap}
    (h : standingsSig l1 = standingsSig l2) (ht : TeamKey l2) : TeamKey l1 := by
  intro p hp
  have hmem : (p.1, p.2.team) ∈ standingsSig l2 := by
    rw [← h]
    exact List.mem_map_of_mem (fun q => (q.1, q.2.team)) hp
  obtain ⟨q, hq, heq⟩ := List.mem_map.mp hmem
  have h1 : q.1 = p.1 := congrArg (fun r : String × domain.Team => r.1) heq
  have h2 : q.2.team = p.2.team := congrArg (fun r : String × domain.Team => r.2) heq
  rw [← h2, ← h1]
  exact ht q hq

/-- Sorted keys and the team-of-key invariant put the entries in
strictly ascending team id order. -/
lemma pairwise_teamIds {l : StandingsMap} (hs : KeysSorted l) (ht : TeamKey l) :
    l.Pairwise (fun p q => strLt p.2.team.Id q.2.team.Id = true) := by
  unfold KeysSorted at hs
  have h := List.pairwise_map.mp hs
  refine List.Pairwise.imp_of_mem ?_ h
  intro a b ha hb hab
  rwa [ht a ha, ht b hb]

/-- C5 (corrected): for a group with duplicate-free roster ids whose
counted matches stay inside the roster, CalculateGroupStandings sorts
descending by wins, then goal difference, then goals for; teams tied
on all three criteria come out in ascending team id order (the
std::map iteration order), not in roster encounter order; matches that
are unplayed or scoreless are ignored; and a roster team with no
counted match keeps an all-zero standing. -/
theorem c5_standings_order (s : Store) (tournamentId groupId : String)
    (g : domain.Group)
    (hg : GroupRepository.FindByTournamentIdAndGroupId s tournamentId groupId = some g)
    (hnd : (g.teams.map (fun u => u.Id)).Nodup)
    (hcov : ∀ m ∈ MatchRepository.FindByGroupId s groupId, isCounted m = true →
      m.home.id ∈ g.teams.map (fun u => u.Id) ∧
      m.visitor.id ∈ g.teams.map (fun u => u.Id)) :
    (CalculateGroupStandings s tournamentId groupId).Pairwise
      (fun a b => standingLe a b = true) ∧
    (CalculateGroupStandings s tournamentId groupId).Pairwise
      (fun a b => standingLess a b = true ∨ strLt a.team.Id b.team.Id = true) ∧
    CalculateGroupStandings s tournamentId groupId =
      CalculateGroupStandings { s with matchesTable := s.matchesTable.filter isCounted }
        tournamentId groupId ∧
    ∀ t ∈ g.teams,
      (∀ m ∈ MatchRepository.FindByGroupId s groupId, isCounted m = true →
        m.home.id ≠ t.Id ∧ m.visitor.id ≠ t.Id) →
      { defaultStanding with team := t } ∈ CalculateGroupStandings s tournamentId groupId := by
  have hCalc : CalculateGroupStandings s tournamentId groupId =
      sortStandings (((MatchRepository.FindByGroupId s groupId).foldl matchStep
        (initStandings g.teams)).map (fun p =>
          { p.2 with goalDifference := p.2.goalsFor - p.2.goalsAgainst })) := by
    unfold CalculateGroupStandings
    simp only [hg]
  obtain ⟨hsInit, hkInit, hcovInit⟩ := initStandings_invariant g.teams
  have hkeys : ∀ m ∈ MatchRepository.FindByGroupId s groupId, isCounted m = true →
      m.home.id ∈ (initStandings g.teams).map Prod.fst ∧
      m.visitor.id ∈ (initStandings g.teams).map Prod.fst := by
    intro m hm hc
    obtain ⟨h1, h2⟩ := hcov m hm hc
    constructor
    · obtain ⟨t, ht, hid⟩ := List.mem_map.mp h1
      rw [← hid]
      exact hcovInit t ht
    · obtain ⟨t, ht, hid⟩ := List.mem_map.mp h2
      rw [← hid]
      exact hcovInit t ht
  have hsig : standingsSig ((MatchRepository.FindByGroupId s groupId).foldl matchStep
      (initStandings g.teams)) = standingsSig (initStandings g.teams) :=
    standingsSig_foldl _ _ hsInit hkeys
  have hkeysEq : ((MatchRepository.FindByGroupId s groupId).foldl matchStep
      (initStandings g.teams)).map Prod.fst = (initStandings g.teams).map Prod.fst := by
    rw [← map_fst_standingsSig, hsig, map_fst_standingsSig]
  have hsA : KeysSorted ((MatchRepository.FindByGroupId s groupId).foldl matchStep
      (initStandings g.teams)) := by
    unfold KeysSorted
    rw [hkeysEq]
    exact hsInit
  have hkA : TeamKey ((MatchRepository.FindByGroupId s groupId).foldl matchStep
      (initStandings g.teams)) := teamKey_of_sig hsig hkInit
  have hResult : (((MatchRepository.FindByGroupId s groupId).foldl matchStep
      (initStandings g.teams)).map (fun p =>
        { p.2 with goalDifference := p.2.goalsFor - p.2.goalsAgainst })).Pairwise
      (fun a b => strLt a.team.Id b.team.Id = true) := by
    rw [List.pairwise_map]
    exact pairwise_teamIds hsA hkA
  refine ⟨?_, ?_, ?_, ?_⟩
  · rw [hCalc]
    exact sortStandings_sorted _
  · rw [hCalc]
    refine pairwise_sortStandings_R ?_ _ ?_
    · intro x y h
      left
      unfold standingLe at h
      simpa using h
    · exact hResult.imp (fun h => Or.inr h)
  · have hg2 : GroupRepository.FindByTournamentIdAndGroupId
        { s with matchesTable := s.matchesTable.filter isCounted } tournamentId groupId =
        some g := hg
    have hCalc2 : CalculateGroupStandings
        { s with matchesTable := s.matchesTable.filter isCounted } tournamentId groupId =
        sortStandings (((MatchRepository.FindByGroupId
          { s with matchesTable := s.matchesTable.filter isCounted } groupId).foldl matchStep
          (initStandings g.teams)).map (fun p =>
            { p.2 with goalDifference := p.2.goalsFor - p.2.goalsAgainst })) := by
      unfold CalculateGroupStandings
      simp only [hg2]
    have hms : (MatchRepository.FindByGroupId s groupId).filter isCounted =
        MatchRepository.FindByGroupId
          { s with matchesTable := s.matchesTable.filter isCounted } groupId := by
      show (s.matchesTable.filter (fun m => m.groupId == some groupId)).filter isCounted =
        (s.matchesTable.filter isCounted).filter (fun m => m.groupId == some groupId)
      rw [List.filter_filter, List.filter_filter]
      exact List.filter_congr (fun x _ => by rw [Bool.and_comm])
    rw [hCalc, hCalc2,
      foldl_matchStep_filter (MatchRepository.FindByGroupId s groupId)
        (initStandings g.teams), hms]
  · intro t ht hnone
    rw [hCalc]
    have hmemA : (t.Id, { defaultStanding with team := t }) ∈
        (MatchRepository.FindByGroupId s groupId).foldl matchStep
          (initStandings g.teams) :=
      foldl_matchStep_preserve _ _ _ (initStandings_mem g.teams hnd t ht)
        (fun m hm hc => hnone m hm hc)
    have hmemR := List.mem_map_of_mem (fun p =>
      { p.2 with goalDifference := p.2.goalsFor - p.2.goalsAgainst }) hmemA
    exact ((sortStandings_perm _).mem_iff).mpr hmemR

end C5Lemmas

section C5Claim

open PlayoffGenerationService

/-- C5 counterexample: the roster encounter order of group g5 is b
before a and no match was played, so the two teams tie on all three
criteria; the code returns them in ascending team id order (a before
b), while the encounter-order standings of the claim keep b first. -/
theorem c5_counterexample :
    CalculateGroupStandings Fixtures.c5Store "t5" "g5" ≠
      claimEncounterStandings Fixtures.c5G.teams
        (MatchRepository.FindByGroupId Fixtures.c5Store "g5") := by
  decide

/-- C5 witness: the corrected standings theorem applied to the
two-team tie store; the tied teams come out as a then b although the
roster order is b then a. -/
theorem c5_standings_order_witness :
    (Fixtures.c5G.teams.map (fun u => u.Id)).Nodup ∧
    ((CalculateGroupStandings Fixtures.c5Store "t5" "g5").Pairwise
      (fun a b => standingLe a b = true) ∧
    (CalculateGroupStandings Fixtures.c5Store "t5" "g5").Pairwise
      (fun a b => standingLess a b = true ∨ strLt a.team.Id b.team.Id = true) ∧
    CalculateGroupStandings Fixtures.c5Store "t5" "g5" =
      CalculateGroupStandings
        { Fixtures.c5Store with
          matchesTable := Fixtures.c5Store.matchesTable.filter isCounted } "t5" "g5" ∧
    ∀ t ∈ Fixtures.c5G.teams,
      (∀ m ∈ MatchRepository.FindByGroupId Fixtures.c5Store "g5", isCounted m = true →
        m.home.id ≠ t.Id ∧ m.visitor.id ≠ t.Id) →
      { defaultStanding with team := t } ∈
        CalculateGroupStandings Fixtures.c5Store "t5" "g5") ∧
    (CalculateGroupStandings Fixtures.c5Store "t5" "g5").map (fun st => st.team.Id) =
      ["a", "b"] := by
  refine ⟨by decide,
    c5_standings_order Fixtures.c5Store "t5" "g5" Fixtures.c5G rfl (by decide) (by decide),
    by decide⟩

end C5Claim
